import Mathlib

/-!
Verification of the code-judge subsystem of a coding-practice platform
(`src/server/routes.ts`).  The judge's pure logic (literal/assignment
scanning, signature resolution ordering, argument binding, canonical
normalization, verdict aggregation, interpreter fallback) is embedded as
executable Lean definitions.  Host effects (the Node `vm` module, spawned
Python interpreter processes, `JSON.parse`, wall clocks) are modelled as
explicit oracle parameters: each theorem quantifies over every behaviour
those effects can exhibit.
-/

namespace Judge

/-! ## Values

`JsValue` models the JSON-like values flowing through the judge: parsed
test-fixture literals, arguments, and results.  Numbers are modelled as
integers (the judge never manipulates numbers, it only passes them
through and serializes them). -/

inductive JsValue where
  | null
  | bool (b : Bool)
  | num (n : Int)
  | str (s : String)
  | arr (items : List JsValue)
  | obj (fields : List (String × JsValue))

/-! ## String ordering

JavaScript's default `Array.prototype.sort()` comparator orders strings
lexicographically by code unit.  `charListLe` is that order on the
underlying character lists. -/

def charListLe : List Char → List Char → Bool
  | [], _ => true
  | _ :: _, [] => false
  | a :: as, b :: bs =>
    if a < b then true
    else if b < a then false
    else charListLe as bs

def strLe (a b : String) : Bool := charListLe a.data b.data

/-! ## Sorting object fields by key

`normalizeValue` sorts an object's keys with `Object.keys(record).sort()`
and rebuilds the object in that key order.  On the association-list model
this is a stable insertion sort of the fields by key. -/

def insertField (p : String × JsValue) :
    List (String × JsValue) → List (String × JsValue)
  | [] => [p]
  | q :: rest => if strLe p.1 q.1 then p :: q :: rest else q :: insertField p rest

def sortFieldsByKey : List (String × JsValue) → List (String × JsValue)
  | [] => []
  | p :: rest => insertField p (sortFieldsByKey rest)

def keyLe (p q : String × JsValue) : Prop := strLe p.1 q.1 = true

/-- Strict key order used to derive uniqueness of the sorted form when
keys are distinct. -/
def keyLt (p q : String × JsValue) : Prop := keyLe p q ∧ p.1 ≠ q.1

/-! ## Canonical normalizer (`normalizeValue` / `normalize`)

Source (`routes.ts` 513-531): arrays recurse element-wise; objects are
rebuilt with `Object.keys(record).sort()`; every other value is returned
unchanged.  Sorting compares only keys and field values keep their keys,
so sorting the rebuilt fields after normalizing each value equals the
source's sort-then-normalize order; `normalizeValue_obj_sortFirst` below
proves that reading of the definition. -/

mutual

def normalizeValue : JsValue → JsValue
  | .null => .null
  | .bool b => .bool b
  | .num n => .num n
  | .str s => .str s
  | .arr items => .arr (normalizeValueList items)
  | .obj fields => .obj (sortFieldsByKey (normalizeValueFields fields))

def normalizeValueList : List JsValue → List JsValue
  | [] => []
  | v :: rest => normalizeValue v :: normalizeValueList rest

def normalizeValueFields :
    List (String × JsValue) → List (String × JsValue)
  | [] => []
  | (k, v) :: rest => (k, normalizeValue v) :: normalizeValueFields rest

end

/-! ## Canonical serialization (`JSON.stringify` model) -/

def escapeJsonChar (c : Char) : String :=
  if c = '"' then "\\\""
  else if c = '\\' then "\\\\"
  else if c = '\n' then "\\n"
  else if c = '\r' then "\\r"
  else if c = '\t' then "\\t"
  else if c = '\x08' then "\\b"
  else if c = '\x0c' then "\\f"
  else if c.toNat < 32 then
    "\\u00" ++ String.mk [Nat.digitChar (c.toNat / 16), Nat.digitChar (c.toNat % 16)]
  else String.mk [c]

def escapeJsonString (s : String) : String :=
  "\"" ++ String.join (s.data.map escapeJsonChar) ++ "\""

mutual

def jsonStringify : JsValue → String
  | .null => "null"
  | .bool true => "true"
  | .bool false => "false"
  | .num n => toString n
  | .str s => escapeJsonString s
  | .arr items => "[" ++ jsonStringifyList items ++ "]"
  | .obj fields => "\x7b" ++ jsonStringifyFields fields ++ "\x7d"

def jsonStringifyList : List JsValue → String
  | [] => ""
  | [v] => jsonStringify v
  | v :: rest => jsonStringify v ++ "," ++ jsonStringifyList rest

def jsonStringifyFields : List (String × JsValue) → String
  | [] => ""
  | [(k, v)] => escapeJsonString k ++ ":" ++ jsonStringify v
  | (k, v) :: rest =>
      escapeJsonString k ++ ":" ++ jsonStringify v ++ "," ++ jsonStringifyFields rest

end

def normalize (value : JsValue) : String := jsonStringify (normalizeValue value)

/-! ## Lexical scanners

Models of the regular-expression scans in `routes.ts`.  Each JS regex
used by the judge has disjoint character classes at every greedy/lazy
boundary, so its leftmost-match semantics is exactly "try the
deterministic matcher at each start position, left to right"
(`scanFirst`). -/

def isIdentStartChar (c : Char) : Bool :=
  ('A' ≤ c && c ≤ 'Z') || ('a' ≤ c && c ≤ 'z') || c = '_' || c = '$'

def isIdentChar (c : Char) : Bool := isIdentStartChar c || ('0' ≤ c && c ≤ '9')

def isPyIdentStartChar (c : Char) : Bool :=
  ('A' ≤ c && c ≤ 'Z') || ('a' ≤ c && c ≤ 'z') || c = '_'

def isPyIdentChar (c : Char) : Bool := isPyIdentStartChar c || ('0' ≤ c && c ≤ '9')

def isJsSpace (c : Char) : Bool :=
  c = ' ' || c = '\t' || c = '\n' || c = '\r' || c = '\x0b' || c = '\x0c'

def takeWhileChars (p : Char → Bool) : List Char → List Char × List Char
  | [] => ([], [])
  | c :: rest =>
    if p c then
      let (tk, rst) := takeWhileChars p rest
      (c :: tk, rst)
    else ([], c :: rest)

def matchIdentGen (start cont : Char → Bool) :
    List Char → Option (String × List Char)
  | [] => none
  | c :: rest =>
    if start c then
      let (tk, rst) := takeWhileChars cont rest
      some (String.mk (c :: tk), rst)
    else none

/-- Greedy match of `[A-Za-z_$][A-Za-z0-9_$]*` at the current position. -/
def matchIdentAt : List Char → Option (String × List Char) :=
  matchIdentGen isIdentStartChar isIdentChar

/-- Greedy match of `[A-Za-z_][A-Za-z0-9_]*` at the current position. -/
def matchPyIdentAt : List Char → Option (String × List Char) :=
  matchIdentGen isPyIdentStartChar isPyIdentChar

/-- Consume `\s*`. -/
def skipWs : List Char → List Char
  | [] => []
  | c :: rest => if isJsSpace c then skipWs rest else c :: rest

/-- Consume `\s+` (at least one whitespace character). -/
def skipWs1 : List Char → Option (List Char)
  | [] => none
  | c :: rest => if isJsSpace c then some (skipWs rest) else none

def expectChar (c : Char) : List Char → Option (List Char)
  | [] => none
  | d :: rest => if d = c then some rest else none

def matchLiteral : List Char → List Char → Option (List Char)
  | [], rest => some rest
  | _ :: _, [] => none
  | c :: cs, d :: rest => if d = c then matchLiteral cs rest else none

/-- Match `[^stop]*stop`: capture up to the first `stop` and consume it. -/
def takeUntilChar (stop : Char) : List Char → Option (List Char × List Char)
  | [] => none
  | c :: rest =>
    if c = stop then some ([], rest)
    else
      match takeUntilChar stop rest with
      | some (tk, rst) => some (c :: tk, rst)
      | none => none

/-- Match the lazy `[\s\S]*?stop`: drop everything up to and including the
first `stop`. -/
def dropUntilChar (stop : Char) : List Char → Option (List Char)
  | [] => none
  | c :: rest => if c = stop then some rest else dropUntilChar stop rest

/-- Leftmost match: try the deterministic matcher at each start position. -/
def scanFirst {α : Type} (m : List Char → Option α) : List Char → Option α
  | [] => m []
  | c :: rest =>
    match m (c :: rest) with
    | some r => some r
    | none => scanFirst m rest

/-- `String.prototype.split(",")`, keeping empty groups. -/
def splitOnComma : List Char → List (List Char)
  | [] => [[]]
  | c :: rest =>
    let groups := splitOnComma rest
    if c = ',' then [] :: groups
    else
      match groups with
      | g :: gs => (c :: g) :: gs
      | [] => [[c]]

/-- `String.prototype.trim()` (over the judge's ASCII inputs). -/
def jsTrim (l : List Char) : List Char := (skipWs (skipWs l).reverse).reverse

def jsTrimString (s : String) : String := String.mk (jsTrim s.data)

/-- `argsCsv.split(",").map(trim).filter(Boolean)` from the JS signature
scans. -/
def splitTrimFilter (argsCsv : List Char) : List String :=
  (((splitOnComma argsCsv).map jsTrim).filter (fun g => !g.isEmpty)).map
    (fun g => String.mk g)

def takeBeforeChar (stop : Char) : List Char → List Char
  | [] => []
  | c :: rest => if c = stop then [] else c :: takeBeforeChar stop rest

/-- Python parameter-list processing: split on commas, trim, drop empties,
strip default values (`arg.split("=")[0].trim()`), drop empties again. -/
def pySplitArgs (argsCsv : List Char) : List String :=
  (((((splitOnComma argsCsv).map jsTrim).filter (fun g => !g.isEmpty)).map
      (fun a => jsTrim (takeBeforeChar '=' a))).filter
    (fun g => !g.isEmpty)).map (fun g => String.mk g)

structure FnSig where
  name : String
  args : List String
deriving DecidableEq

/-- Matcher for `function\s+([A-Za-z_$][A-Za-z0-9_$]*)\s*\(([^)]*)\)` at a
fixed position. -/
def matchFunctionDeclAt (l : List Char) : Option FnSig := do
  let l ← matchLiteral "function".data l
  let l ← skipWs1 l
  let (name, l) ← matchIdentAt l
  let l := skipWs l
  let l ← expectChar '(' l
  let (argsCsv, _) ← takeUntilChar ')' l
  pure { name := name, args := splitTrimFilter argsCsv }

/-- Matcher for the `(?:const|let|var)` alternation. -/
def matchDeclKeywordAt (l : List Char) : Option (List Char) :=
  match matchLiteral "const".data l with
  | some r => some r
  | none =>
    match matchLiteral "let".data l with
    | some r => some r
    | none => matchLiteral "var".data l

/-- Matcher for `(?:const|let|var)\s+NAME\s*=\s*\(([^)]*)\)\s*=>`. -/
def matchAssignedArrowAt (l : List Char) : Option FnSig := do
  let l ← matchDeclKeywordAt l
  let l ← skipWs1 l
  let (name, l) ← matchIdentAt l
  let l := skipWs l
  let l ← expectChar '=' l
  let l := skipWs l
  let l ← expectChar '(' l
  let (argsCsv, l) ← takeUntilChar ')' l
  let l := skipWs l
  let _ ← matchLiteral "=>".data l
  pure { name := name, args := splitTrimFilter argsCsv }

/-- Matcher for `(?:const|let|var)\s+NAME\s*=\s*function\s*\(([^)]*)\)`. -/
def matchAssignedFunctionAt (l : List Char) : Option FnSig := do
  let l ← matchDeclKeywordAt l
  let l ← skipWs1 l
  let (name, l) ← matchIdentAt l
  let l := skipWs l
  let l ← expectChar '=' l
  let l := skipWs l
  let l ← matchLiteral "function".data l
  let l := skipWs l
  let l ← expectChar '(' l
  let (argsCsv, _) ← takeUntilChar ')' l
  pure { name := name, args := splitTrimFilter argsCsv }

/-- Matcher for `(?:const|let|var)\s+NAME\s*=\s*ARG\s*=>`. -/
def matchSingleArgArrowAt (l : List Char) : Option FnSig := do
  let l ← matchDeclKeywordAt l
  let l ← skipWs1 l
  let (name, l) ← matchIdentAt l
  let l := skipWs l
  let l ← expectChar '=' l
  let l := skipWs l
  let (arg, l) ← matchIdentAt l
  let l := skipWs l
  let _ ← matchLiteral "=>".data l
  pure { name := name, args := [arg] }

/-- `findFunctionSignature` (`routes.ts` 437-489): the four structural
patterns tried in source order; `none` models the final `throw`. -/
def findFunctionSignature (code : String) : Option FnSig :=
  match scanFirst matchFunctionDeclAt code.data with
  | some sig => some sig
  | none =>
    match scanFirst matchAssignedArrowAt code.data with
    | some sig => some sig
    | none =>
      match scanFirst matchAssignedFunctionAt code.data with
      | some sig => some sig
      | none => scanFirst matchSingleArgArrowAt code.data

structure ClassMethodSig where
  className : String
  methodName : String
  args : List String
deriving DecidableEq

/-- Matcher for `class\s+([A-Za-z_$][A-Za-z0-9_$]*)[\s\S]*?{([\s\S]*?)}`:
the captured class body runs from the first `{` after the class name to
the very next `}` (so a first method's body brace ends it). -/
def matchClassAt (l : List Char) : Option (String × List Char) := do
  let l ← matchLiteral "class".data l
  let l ← skipWs1 l
  let (name, l) ← matchIdentAt l
  let l ← dropUntilChar '\x7b' l
  let (body, _) ← takeUntilChar '\x7d' l
  pure (name, body)

/-- Matcher for `([A-Za-z_$][A-Za-z0-9_$]*)\s*\(([^)]*)\)\s*{` inside a
class body.  Note the name class also matches names starting with an
underscore. -/
def matchMethodAt (l : List Char) : Option (String × List Char) := do
  let (name, l) ← matchIdentAt l
  let l := skipWs l
  let l ← expectChar '(' l
  let (argsCsv, l) ← takeUntilChar ')' l
  let l := skipWs l
  let _ ← expectChar '\x7b' l
  pure (name, argsCsv)

/-- `findJsClassMethodSignature` (`routes.ts` 233-262). -/
def findJsClassMethodSignature (code : String) : Option ClassMethodSig :=
  match scanFirst matchClassAt code.data with
  | none => none
  | some (className, classBody) =>
    match scanFirst matchMethodAt classBody with
    | none => none
    | some (methodName, argsCsv) =>
      some { className := className, methodName := methodName,
             args := splitTrimFilter argsCsv }

/-- Matcher for `def\s+([A-Za-z_][A-Za-z0-9_]*)\s*\(([^)]*)\)\s*:`. -/
def matchPyDefAt (l : List Char) : Option FnSig := do
  let l ← matchLiteral "def".data l
  let l ← skipWs1 l
  let (name, l) ← matchPyIdentAt l
  let l := skipWs l
  let l ← expectChar '(' l
  let (argsCsv, l) ← takeUntilChar ')' l
  let l := skipWs l
  let _ ← expectChar ':' l
  pure { name := name, args := pySplitArgs argsCsv }

/-- `findPythonFunctionSignature` (`routes.ts` 491-511); `none` models the
`throw`, which the caller turns into a null signature. -/
def findPythonFunctionSignature (code : String) : Option FnSig :=
  scanFirst matchPyDefAt code.data

/-- Matcher for one step of the global scan `([A-Za-z_$][A-Za-z0-9_$]*)\s*=`. -/
def matchAssignAt (l : List Char) : Option (String × List Char) := do
  let (name, l) ← matchIdentAt l
  let l := skipWs l
  let l ← expectChar '=' l
  pure (name, l)

/-- Global-regex scan: at each position try `matchAssignAt`; on a match,
record the name and resume after the match (the regex `lastIndex`).  The
fuel is the input length, which bounds the number of steps. -/
def scanAssignNamesAux : Nat → List Char → List String
  | 0, _ => []
  | _ + 1, [] => []
  | n + 1, c :: rest =>
    match matchAssignAt (c :: rest) with
    | some (name, after) => name :: scanAssignNamesAux n after
    | none => scanAssignNamesAux n rest

/-- First-seen deduplication (`if (!names.includes(name)) names.push(name)`). -/
def dedupKeepFirst (names : List String) : List String :=
  names.foldl (fun acc n => if acc.contains n then acc else acc ++ [n]) []

/-- `parseAssignmentOrder` (`routes.ts` 192-203). -/
def parseAssignmentOrder (input : String) : List String :=
  dedupKeepFirst (scanAssignNamesAux input.data.length input.data)

/-! ## Judge data model (`routes.ts` 127-148) -/

structure TestCase where
  input : String
  output : String
deriving DecidableEq

inductive SupportedLanguage where
  | javascript
  | python
deriving DecidableEq

inductive ExecutionMode where
  | strict
  | execution_only
deriving DecidableEq

inductive Status where
  | accepted
  | wrong_answer
  | runtime_error
deriving DecidableEq

structure CaseResult where
  input : String
  expected : String
  actual : Option String
  passed : Bool
  error : Option String
deriving DecidableEq

structure Verdict where
  status : Status
  runtime : Nat
  passed : Nat
  total : Nat
  results : List CaseResult
deriving DecidableEq

/-- `buildFatalRunResult` (`routes.ts` 135-148). -/
def buildFatalRunResult (message : String) (testCases : List TestCase) : Verdict :=
  { status := .runtime_error, runtime := 0, passed := 0,
    total := testCases.length,
    results := testCases.map (fun testCase =>
      { input := testCase.input, expected := testCase.output, actual := none,
        passed := false, error := some message }) }

/-! ## Argument binder (`buildCallArgs`, `routes.ts` 205-231) -/

def hasOwnProperty (record : List (String × JsValue)) (key : String) : Bool :=
  record.any (fun p => p.1 == key)

/-- Record lookup; the `.null` default is unreachable on the paths where
it is used (they are guarded by `hasOwnProperty`). -/
def recordGet (record : List (String × JsValue)) (key : String) : JsValue :=
  match record.find? (fun p => p.1 == key) with
  | some p => p.2
  | none => .null

def buildCallArgs (signatureArgs : List String)
    (inputByName : List (String × JsValue)) (inputOrder : List String)
    (fallbackArity : Nat) : List JsValue :=
  let hasAllNamedArgs :=
    decide (signatureArgs.length > 0) &&
      signatureArgs.all (fun argName => hasOwnProperty inputByName argName)
  if hasAllNamedArgs then
    signatureArgs.map (fun argName => recordGet inputByName argName)
  else
    let orderedValues :=
      (inputOrder.filter (fun name => hasOwnProperty inputByName name)).map
        (fun name => recordGet inputByName name)
    if signatureArgs.length = 0 then
      if fallbackArity > 0 then orderedValues.take fallbackArity
      else orderedValues
    else orderedValues.take signatureArgs.length

/-! ## Verdict aggregation (`routes.ts` 597-611 and 794-808)

`results.some((result) => result.error)` tests JavaScript truthiness of
the error string, so a present-but-empty error message does not count. -/

def caseErrorTruthy (r : CaseResult) : Bool :=
  match r.error with
  | some s => s != ""
  | none => false

def verdictStatus (results : List CaseResult) : Status :=
  if (results.filter (fun r => r.passed)).length = results.length then
    Status.accepted
  else if results.any caseErrorTruthy then Status.runtime_error
  else Status.wrong_answer

def verdictOfResults (elapsedMs : Nat) (results : List CaseResult) : Verdict :=
  { status := verdictStatus results, runtime := elapsedMs,
    passed := (results.filter (fun r => r.passed)).length,
    total := results.length, results := results }

/-! ## JavaScript signature resolver (`resolveJavascriptCallable`,
`routes.ts` 264-435)

The resolver interleaves pure string scans with probes of the live `vm`
context.  The context's behaviour is an oracle (`JsEnv`): which global
names are functions, their `.length` arity, the global-name snapshots
taken before/after evaluating the submitted code, and whether
`module.exports` (or its `default`) is callable.  The `globalThis.__solution`
assignment is modelled by the `target` field of the result. -/

inductive BindingTarget where
  | globalFn (name : String)
  | classMethod (className methodName : String)
  | moduleExports
  | moduleExportsDefault
deriving DecidableEq

structure JsResolvedCallable where
  argNames : List String
  fallbackArity : Nat
  target : BindingTarget
deriving DecidableEq

structure JsEnv where
  /-- Outcome of compiling and running the submitted code in the fresh
  context (`new vm.Script(code)` + `runInContext`). -/
  runScript : Except String Unit
  /-- `Object.getOwnPropertyNames(globalThis)` before running the code. -/
  globalsBefore : List String
  /-- `Object.getOwnPropertyNames(globalThis)` after running the code. -/
  globalsAfter : List String
  /-- `typeof <global name> === "function"` after running the code. -/
  isFunction : String → Bool
  /-- `<global name>.length` for a function-valued global. -/
  arity : String → Nat
  moduleExportsIsFunction : Bool
  moduleExportsArity : Nat
  moduleDefaultIsFunction : Bool
  moduleDefaultArity : Nat
  /-- `typeof executionContext.__solution === "function"` checked by
  `runJavascriptAgainstTestCases` after resolution. -/
  solutionIsFunction : Bool
  /-- Outcome of the `parseAssignments` vm evaluation for a test input. -/
  parseAssignments : String → Except String (List (String × JsValue))
  /-- Outcome of `__solution(...__args)` for bound arguments. -/
  callSolution : List JsValue → Except String JsValue
  /-- Outcome of `parseLiteral` on an expected-output string. -/
  parseLiteral : String → Except String JsValue
  /-- `Date.now() - startedAt` at verdict construction. -/
  elapsedMs : Nat

/-- Steps 6-7: `module.exports` itself callable, else its `default`. -/
def resolveViaModuleExports (env : JsEnv) : Except String JsResolvedCallable :=
  if env.moduleExportsIsFunction then
    .ok { argNames := [], fallbackArity := env.moduleExportsArity,
          target := .moduleExports }
  else if env.moduleDefaultIsFunction then
    .ok { argNames := [], fallbackArity := env.moduleDefaultArity,
          target := .moduleExportsDefault }
  else .error "No callable solution function found."

/-- Step 5: probe the conventional names in order. -/
def resolveViaCommonNames (env : JsEnv) : Except String JsResolvedCallable :=
  match ["solve", "solution", "main"].find? (fun n => env.isFunction n) with
  | some commonName =>
    .ok { argNames := [], fallbackArity := env.arity commonName,
          target := .globalFn commonName }
  | none => resolveViaModuleExports env

/-- Step 4: diff the global names against the pre-evaluation snapshot and
take the first newly created function. -/
def resolveViaNewGlobals (env : JsEnv) : Except String JsResolvedCallable :=
  let newFunctionKeys := env.globalsAfter.filter (fun key =>
    !env.globalsBefore.contains key && env.isFunction key)
  match newFunctionKeys with
  | candidate :: _ =>
    .ok { argNames := [], fallbackArity := env.arity candidate,
          target := .globalFn candidate }
  | [] => resolveViaCommonNames env

/-- Step 3: class detection (`findJsClassMethodSignature`), binding to
"construct an instance and call the matched method". -/
def resolveViaClassMethod (env : JsEnv) (code : String) :
    Except String JsResolvedCallable :=
  match findJsClassMethodSignature code with
  | some classMethod =>
    if env.isFunction classMethod.className then
      .ok { argNames := classMethod.args,
            fallbackArity := classMethod.args.length,
            target := .classMethod classMethod.className classMethod.methodName }
    else resolveViaNewGlobals env
  | none => resolveViaNewGlobals env

/-- Step 2: structural declaration scan (`findFunctionSignature`); a scan
failure or a non-function name falls through to step 3. -/
def resolveViaDeclaredSignature (env : JsEnv) (code : String) :
    Except String JsResolvedCallable :=
  match findFunctionSignature code with
  | some signature =>
    if env.isFunction signature.name then
      .ok { argNames := signature.args,
            fallbackArity := env.arity signature.name,
            target := .globalFn signature.name }
    else resolveViaClassMethod env code
  | none => resolveViaClassMethod env code

/-- `resolveJavascriptCallable` (`routes.ts` 264-435): run the code, then
step 1 (expected name), then steps 2-7. -/
def resolveJavascriptCallable (env : JsEnv) (code : String)
    (expectedFunctionName : Option String) : Except String JsResolvedCallable :=
  match env.runScript with
  | .error e => .error e
  | .ok _ =>
    match expectedFunctionName with
    | some name =>
      if env.isFunction name then
        .ok { argNames := [], fallbackArity := env.arity name,
              target := .globalFn name }
      else resolveViaDeclaredSignature env code
    | none => resolveViaDeclaredSignature env code

/-! ## JavaScript strict grading (`runJavascriptAgainstTestCases`,
`routes.ts` 533-612) -/

/-- `parseAssignments` (`routes.ts` 170-190): an empty discovered-name
list short-circuits to `{}` without evaluating; otherwise the vm
evaluates the assignment script (oracle). -/
def parseAssignmentsWith
    (oracle : String → Except String (List (String × JsValue)))
    (input : String) : Except String (List (String × JsValue)) :=
  if parseAssignmentOrder input = [] then .ok [] else oracle input

/-- The per-case pipeline inside the `try` block: parse assignments,
compute discovery order, bind arguments, invoke `__solution`, parse the
expected literal. -/
def jsCaseSteps (env : JsEnv) (resolvedCallable : JsResolvedCallable)
    (testCase : TestCase) : Except String (JsValue × JsValue) := do
  let inputByName ← parseAssignmentsWith env.parseAssignments testCase.input
  let inputOrder := parseAssignmentOrder testCase.input
  let args := buildCallArgs resolvedCallable.argNames inputByName inputOrder
    resolvedCallable.fallbackArity
  let actualValue ← env.callSolution args
  let expectedValue ← env.parseLiteral testCase.output
  pure (actualValue, expectedValue)

/-- One `testCases.map` iteration: the `catch` branch materializes a
failed `CaseResult` carrying the thrown message. -/
def jsRunCase (env : JsEnv) (resolvedCallable : JsResolvedCallable)
    (mode : ExecutionMode) (testCase : TestCase) : CaseResult :=
  match jsCaseSteps env resolvedCallable testCase with
  | .ok (actualValue, expectedValue) =>
    { input := testCase.input, expected := normalize expectedValue,
      actual := some (normalize actualValue),
      passed :=
        if mode = .execution_only then true
        else normalize actualValue == normalize expectedValue,
      error := none }
  | .error message =>
    { input := testCase.input, expected := testCase.output, actual := none,
      passed := false, error := some message }

def runJavascriptAgainstTestCases (env : JsEnv) (code : String)
    (testCases : List TestCase) (expectedFunctionName : Option String)
    (mode : ExecutionMode) : Verdict :=
  match resolveJavascriptCallable env code expectedFunctionName with
  | .error message => buildFatalRunResult message testCases
  | .ok resolvedCallable =>
    if !env.solutionIsFunction then
      buildFatalRunResult "No callable solution function found." testCases
    else
      verdictOfResults env.elapsedMs
        (testCases.map (jsRunCase env resolvedCallable mode))

/-! ## Out-of-process Python runner (`runPythonCase`, `routes.ts` 614-731)

`spawnSync` results are an oracle per attempted interpreter invocation:
either a spawn-level failure carrying an error code (`ENOENT` when the
binary is absent, `ETIMEDOUT` on timeout, ...) and message, or a
completed process with exit status, stdout and stderr. -/

structure PyAttempt where
  cmd : String
  args : List String
deriving DecidableEq

inductive SpawnOutcome where
  | failed (errCode : String) (message : String)
  | completed (exitStatus : Int) (stdout : String) (stderr : String)
deriving DecidableEq

/-- The runner-side companion script sent to the interpreter via `-c`
(`routes.ts` 619-688). -/
def pythonRunnerScript : String :=
  "\nimport json\nimport sys\nimport inspect\n\npayload = json.loads(sys.stdin.read())\nnamespace = \x7b\x7d\n\ntry:\n"
  ++ "    exec(payload[\"code\"], namespace, namespace)\n    fn = None\n    function_name = payload.get(\"functionName\")\n    arg_count = len(payload[\"args\"])\n\n"
  ++ "    if function_name:\n        candidate = namespace.get(function_name)\n        if callable(candidate):\n            fn = candidate\n\n"
  ++ "    if fn is None:\n        solution_cls = namespace.get(\"Solution\")\n        if solution_cls is not None:\n            instance = solution_cls()\n            class_methods = []\n"
  ++ "            for method_name in dir(instance):\n                if method_name.startswith(\"_\"):\n                    continue\n                method = getattr(instance, method_name, None)\n                if callable(method):\n                    class_methods.append((method_name, method))\n"
  ++ "            exact = []\n            for method_name, method in class_methods:\n                try:\n                    sig = inspect.signature(method)\n                    if len(sig.parameters) == arg_count:\n                        exact.append((method_name, method))\n                except Exception:\n                    continue\n"
  ++ "            if exact:\n                fn = exact[0][1]\n            elif class_methods:\n                fn = class_methods[0][1]\n\n"
  ++ "    if fn is None:\n        top_level_functions = []\n        for key, value in namespace.items():\n            if key.startswith(\"_\"):\n                continue\n            if inspect.isfunction(value):\n                top_level_functions.append((key, value))\n"
  ++ "        exact = []\n        for key, value in top_level_functions:\n            try:\n                sig = inspect.signature(value)\n                if len(sig.parameters) == arg_count:\n                    exact.append((key, value))\n            except Exception:\n                continue\n"
  ++ "        if exact:\n            fn = exact[0][1]\n        elif top_level_functions:\n            fn = top_level_functions[0][1]\n\n"
  ++ "    if not callable(fn):\n        raise Exception(\"No callable solution function found.\")\n    result = fn(*payload[\"args\"])\n    print(json.dumps(\x7b\"ok\": True, \"actual\": result\x7d))\n"
  ++ "except Exception as e:\n    print(json.dumps(\x7b\"ok\": False, \"error\": str(e)\x7d))\n"

/-- The candidate interpreter invocations, tried in order
(`routes.ts` 691-694). -/
def pythonCaseAttempts : List PyAttempt :=
  [ { cmd := "python", args := ["-c", pythonRunnerScript] },
    { cmd := "py", args := ["-3", "-c", pythonRunnerScript] } ]

/-- `JSON.stringify({ code, functionName, args })` written to the
interpreter's stdin. -/
def pythonPayload (code : String) (functionName : Option String)
    (args : List JsValue) : String :=
  jsonStringify (.obj
    [ ("code", .str code),
      ("functionName",
        match functionName with
        | some n => .str n
        | none => .null),
      ("args", .arr args) ])

/-- Parsed `{ok: bool, actual?: value, error?: string}` response. -/
inductive PyCaseOutcome where
  | ok (actual : JsValue)
  | err (error : String)

/-- The `for (const attempt of attempts)` loop of `runPythonCase`:
`ENOENT` falls through to the next attempt, any other spawn failure
fails the case, empty stdout surfaces stderr, and stdout is parsed as
the JSON response (`parseResponse` models `JSON.parse`, `none` being a
parse throw).  Exhausting the attempts yields the runtime-not-found
error. -/
def runPythonAttemptList (spawn : PyAttempt → String → SpawnOutcome)
    (parseResponse : String → Option PyCaseOutcome) (payload : String) :
    List PyAttempt → PyCaseOutcome
  | [] => .err "Python runtime not found. Install Python and try again."
  | attempt :: rest =>
    match spawn attempt payload with
    | .failed errCode message =>
      if errCode = "ENOENT" then
        runPythonAttemptList spawn parseResponse payload rest
      else .err message
    | .completed _ stdout stderr =>
      let out := jsTrimString stdout
      if out = "" then
        let errText := jsTrimString stderr
        .err (if errText = "" then "Python execution failed." else errText)
      else
        match parseResponse out with
        | some parsed => parsed
        | none => .err "Invalid Python runner response."

def runPythonCase (spawn : PyAttempt → String → SpawnOutcome)
    (parseResponse : String → Option PyCaseOutcome) (code : String)
    (functionName : Option String) (args : List JsValue) : PyCaseOutcome :=
  runPythonAttemptList spawn parseResponse
    (pythonPayload code functionName args) pythonCaseAttempts

/-! ## Python strict grading (`runPythonAgainstTestCases`,
`routes.ts` 733-809) -/

structure PyEnv where
  /-- `parseAssignments` vm evaluation (same host helper as the JS path). -/
  parseAssignments : String → Except String (List (String × JsValue))
  /-- `parseLiteral` vm evaluation. -/
  parseLiteral : String → Except String JsValue
  /-- `spawnSync` with the given attempt and stdin payload. -/
  spawn : PyAttempt → String → SpawnOutcome
  /-- `spawnSync` without stdin (the execution-only invocations). -/
  spawnNoInput : PyAttempt → SpawnOutcome
  /-- `JSON.parse` of the runner's stdout. -/
  parseResponse : String → Option PyCaseOutcome
  /-- `Date.now() - startedAt` at verdict construction. -/
  elapsedMs : Nat

/-- The per-case pipeline of the Python path: parse assignments, bind
arguments against the statically scanned signature, parse the expected
literal, then invoke the out-of-process runner. -/
def pyCaseSteps (env : PyEnv) (code : String) (signature : Option FnSig)
    (expectedFunctionName : Option String) (testCase : TestCase) :
    Except String (JsValue × PyCaseOutcome) := do
  let inputByName ← parseAssignmentsWith env.parseAssignments testCase.input
  let inputOrder := parseAssignmentOrder testCase.input
  let args := buildCallArgs
    (match signature with | some s => s.args | none => [])
    inputByName inputOrder
    (match signature with | some s => s.args.length | none => 0)
  let expectedValue ← env.parseLiteral testCase.output
  let execution := runPythonCase env.spawn env.parseResponse code
    (match signature with | some s => some s.name | none => expectedFunctionName)
    args
  pure (expectedValue, execution)

def pyRunCase (env : PyEnv) (code : String) (signature : Option FnSig)
    (expectedFunctionName : Option String) (mode : ExecutionMode)
    (testCase : TestCase) : CaseResult :=
  match pyCaseSteps env code signature expectedFunctionName testCase with
  | .error message =>
    { input := testCase.input, expected := testCase.output, actual := none,
      passed := false, error := some message }
  | .ok (expectedValue, .err executionError) =>
    { input := testCase.input, expected := normalize expectedValue,
      actual := none, passed := false, error := some executionError }
  | .ok (expectedValue, .ok actualValue) =>
    { input := testCase.input, expected := normalize expectedValue,
      actual := some (normalize actualValue),
      passed :=
        if mode = .execution_only then true
        else normalize actualValue == normalize expectedValue,
      error := none }

def runPythonAgainstTestCases (env : PyEnv) (code : String)
    (testCases : List TestCase) (expectedFunctionName : Option String)
    (mode : ExecutionMode) : Verdict :=
  let signature := findPythonFunctionSignature code
  verdictOfResults env.elapsedMs
    (testCases.map (pyRunCase env code signature expectedFunctionName mode))

/-! ## Execution-only runners (`routes.ts` 811-934) -/

/-- The synthetic single case used when a problem defines no test cases. -/
def syntheticCases (testCases : List TestCase) : List TestCase :=
  if testCases.length > 0 then testCases
  else [{ input := "execution-only",
          output := "code executes without runtime errors" }]

/-- `runJavascriptExecutionOnly` (`routes.ts` 811-853): evaluate the
whole submission in a fresh context; success means every synthetic case
passes, a throw fails them all with the thrown message. -/
def runJavascriptExecutionOnly (runScript : Except String Unit)
    (elapsedMs : Nat) (testCases : List TestCase) : Verdict :=
  let syntheticList := syntheticCases testCases
  match runScript with
  | .ok _ =>
    { status := .accepted, runtime := elapsedMs,
      passed := syntheticList.length, total := syntheticList.length,
      results := syntheticList.map (fun tc =>
        { input := tc.input, expected := tc.output, actual := some "executed",
          passed := true, error := none }) }
  | .error message =>
    { status := .runtime_error, runtime := elapsedMs, passed := 0,
      total := syntheticList.length,
      results := syntheticList.map (fun tc =>
        { input := tc.input, expected := tc.output, actual := none,
          passed := false, error := some message }) }

/-- The candidate whole-script invocations of the execution-only Python
path (`routes.ts` 861-864). -/
def pythonExecAttempts (code : String) : List PyAttempt :=
  [ { cmd := "python", args := ["-c", code] },
    { cmd := "py", args := ["-3", "-c", code] } ]

/-- The attempt loop of `runPythonExecutionOnly`: `ENOENT` falls through
to the next attempt; other spawn failures and non-zero exits fail every
synthetic case; a zero exit accepts them all; exhausting the attempts
reports the missing runtime. -/
def runPythonExecutionOnlyAux (spawnNoInput : PyAttempt → SpawnOutcome)
    (elapsedMs : Nat) (syntheticList : List TestCase) :
    List PyAttempt → Verdict
  | [] =>
    { status := .runtime_error, runtime := elapsedMs, passed := 0,
      total := syntheticList.length,
      results := syntheticList.map (fun tc =>
        { input := tc.input, expected := tc.output, actual := none,
          passed := false,
          error := some "Python runtime not found. Install Python and try again." }) }
  | attempt :: rest =>
    match spawnNoInput attempt with
    | .failed errCode message =>
      if errCode = "ENOENT" then
        runPythonExecutionOnlyAux spawnNoInput elapsedMs syntheticList rest
      else
        { status := .runtime_error, runtime := elapsedMs, passed := 0,
          total := syntheticList.length,
          results := syntheticList.map (fun tc =>
            { input := tc.input, expected := tc.output, actual := none,
              passed := false, error := some message }) }
    | .completed exitStatus stdout stderr =>
      if exitStatus ≠ 0 then
        let errMessage :=
          if jsTrimString stderr ≠ "" then jsTrimString stderr
          else if jsTrimString stdout ≠ "" then jsTrimString stdout
          else "Execution failed"
        { status := .runtime_error, runtime := elapsedMs, passed := 0,
          total := syntheticList.length,
          results := syntheticList.map (fun tc =>
            { input := tc.input, expected := tc.output, actual := none,
              passed := false, error := some errMessage }) }
      else
        { status := .accepted, runtime := elapsedMs,
          passed := syntheticList.length, total := syntheticList.length,
          results := syntheticList.map (fun tc =>
            { input := tc.input, expected := tc.output,
              actual := some "executed", passed := true, error := none }) }

def runPythonExecutionOnly (spawnNoInput : PyAttempt → SpawnOutcome)
    (elapsedMs : Nat) (code : String) (testCases : List TestCase) : Verdict :=
  runPythonExecutionOnlyAux spawnNoInput elapsedMs (syntheticCases testCases)
    (pythonExecAttempts code)

/-! ## Orchestrator (`runAgainstTestCases`, `routes.ts` 936-953) -/

def runAgainstTestCases (jsEnv : JsEnv) (pyEnv : PyEnv) (code : String)
    (testCases : List TestCase) (language : SupportedLanguage)
    (expectedFunctionName : Option String) (mode : ExecutionMode) : Verdict :=
  if mode = .execution_only then
    match language with
    | .python => runPythonExecutionOnly pyEnv.spawnNoInput pyEnv.elapsedMs
        code testCases
    | .javascript => runJavascriptExecutionOnly jsEnv.runScript jsEnv.elapsedMs
        testCases
  else
    match language with
    | .python => runPythonAgainstTestCases pyEnv code testCases
        expectedFunctionName mode
    | .javascript => runJavascriptAgainstTestCases jsEnv code testCases
        expectedFunctionName mode

/-! ## Mode selection in the route handlers (`routes.ts` 46-52 and 79-85)

Both handlers compute `(problem.order ?? 0) >= 7 ? "execution_only"
: "strict"`. -/

def runCodeExecutionMode (order : Option Int) : ExecutionMode :=
  if 7 ≤ order.getD 0 then .execution_only else .strict

def submitCodeExecutionMode (order : Option Int) : ExecutionMode :=
  if 7 ≤ order.getD 0 then .execution_only else .strict

/-! ## Verdict invariants -/

/-- The aggregation invariants of §3 of the spec, with "carries an error"
read as JavaScript truthiness of the error string (which is how
`results.some((result) => result.error)` tests it). -/
def StrictVerdictInvariants (v : Verdict) : Prop :=
  v.results.length = v.total ∧
  v.passed = (v.results.filter (fun r => r.passed)).length ∧
  (v.status = .accepted ↔ v.passed = v.total) ∧
  (v.status = .runtime_error ↔
    ((∃ r ∈ v.results, caseErrorTruthy r = true) ∧ v.passed ≠ v.total)) ∧
  (v.status = .wrong_answer ↔
    ((∀ r ∈ v.results, caseErrorTruthy r = false) ∧ v.passed ≠ v.total))

/-! ## Stub oracle environments for concrete evaluations -/

def stubJsEnv : JsEnv :=
  { runScript := .ok (), globalsBefore := [], globalsAfter := [],
    isFunction := fun _ => false, arity := fun _ => 0,
    moduleExportsIsFunction := false, moduleExportsArity := 0,
    moduleDefaultIsFunction := false, moduleDefaultArity := 0,
    solutionIsFunction := true,
    parseAssignments := fun _ => .ok [],
    callSolution := fun _ => .ok .null,
    parseLiteral := fun _ => .ok .null, elapsedMs := 0 }

def stubPyEnv : PyEnv :=
  { parseAssignments := fun _ => .ok [],
    parseLiteral := fun _ => .ok .null,
    spawn := fun _ _ => .failed "ENOENT" "spawn python ENOENT",
    spawnNoInput := fun _ => .failed "ENOENT" "spawn python ENOENT",
    parseResponse := fun _ => none, elapsedMs := 0 }

/-- An oracle consistent with a submission whose only callable is a
global `solve(x)` produced by a `function solve(x)` declaration. -/
def solvedJsEnv : JsEnv :=
  { stubJsEnv with
      globalsAfter := ["solve"],
      isFunction := fun n => n == "solve",
      arity := fun _ => 1 }

/-- Like `solvedJsEnv`, but the assignment-parsing vm evaluation
throws. -/
def throwingParseJsEnv : JsEnv :=
  { solvedJsEnv with
      parseAssignments := fun _ => .error "Unexpected token in assignment" }

/-- First-character underscore test, used to state the class-method
binding claims. -/
def underscoreFirst (s : String) : Bool :=
  match s.data with
  | c :: _ => c = '_'
  | [] => false

/-- A submission defining a class whose first method-like match is
underscore-prefixed while a later method is not. -/
def cexClassCode : String :=
  "class A \x7b _helper(x) \x7b return 1 \x7d solve(a) \x7b return a \x7d \x7d"

/-- Oracle consistent with `cexClassCode`: the only function-valued
global is the class constructor `A`. -/
def cexClassJsEnv : JsEnv :=
  { stubJsEnv with isFunction := fun n => n == "A" }

/-- Oracle consistent with a submission defining only class `B`. -/
def clsJsEnv : JsEnv :=
  { stubJsEnv with isFunction := fun n => n == "B" }

/-- A PyEnv whose interpreter spawn succeeds with exit status 0. -/
def pyOkEnv : PyEnv :=
  { stubPyEnv with spawnNoInput := fun _ => .completed 0 "" "" }

/-- Oracle for a submission with a syntax error: evaluating it throws. -/
def fatalEmptyJsEnv : JsEnv :=
  { stubJsEnv with runScript := .error "Unexpected token" }

/-- The strict JavaScript verdict for a failing resolution over an empty
test-case list. -/
def fatalEmptyVerdict : Verdict :=
  runJavascriptAgainstTestCases fatalEmptyJsEnv "(" [] none .strict

/-- Oracle for a submission whose exported solution throws
`new Error(String())`, i.e. an `Error` with an empty message. -/
def emptyMessageJsEnv : JsEnv :=
  { stubJsEnv with
      moduleExportsIsFunction := true,
      callSolution := fun _ => .error "" }

/-- The strict JavaScript verdict for a case failing with an
empty-message error. -/
def emptyMessageVerdict : Verdict :=
  runJavascriptAgainstTestCases emptyMessageJsEnv
    "module.exports = () => \x7b throw new Error(String()) \x7d"
    [{ input := "x = 1", output := "1" }] none .strict

/-! ## Theorems -/

theorem charListLe_total (as bs : List Char) :
    charListLe as bs = true ∨ charListLe bs as = true := by
  induction as generalizing bs with
  | nil => left; rfl
  | cons a as ih =>
    cases bs with
    | nil => right; rfl
    | cons b bs =>
      rcases lt_trichotomy a b with h | h | h
      · left; simp [charListLe, h]
      · subst h
        rcases ih bs with h' | h'
        · left; simp [charListLe, h']
        · right; simp [charListLe, h']
      · right; simp [charListLe, h, not_lt_of_lt h]

theorem charListLe_trans {as bs cs : List Char}
    (h₁ : charListLe as bs = true) (h₂ : charListLe bs cs = true) :
    charListLe as cs = true := by
  induction as generalizing bs cs with
  | nil => rfl
  | cons a as ih =>
    cases bs with
    | nil => simp [charListLe] at h₁
    | cons b bs =>
      cases cs with
      | nil => simp [charListLe] at h₂
      | cons c cs =>
        rcases lt_trichotomy a b with hab | hab | hab
        · rcases lt_trichotomy b c with hbc | hbc | hbc
          · simp [charListLe, lt_trans hab hbc]
          · subst hbc; simp [charListLe, hab]
          · simp [charListLe, hbc, not_lt_of_lt hbc] at h₂
        · subst hab
          rcases lt_trichotomy a c with hac | hac | hac
          · simp [charListLe, hac]
          · subst hac
            simp only [charListLe, lt_irrefl, if_false] at h₁ h₂ ⊢
            exact ih h₁ h₂
          · simp [charListLe, hac, not_lt_of_lt hac] at h₂
        · simp [charListLe, hab, not_lt_of_lt hab] at h₁

theorem charListLe_antisymm {as bs : List Char}
    (h₁ : charListLe as bs = true) (h₂ : charListLe bs as = true) :
    as = bs := by
  induction as generalizing bs with
  | nil =>
    cases bs with
    | nil => rfl
    | cons b bs => simp [charListLe] at h₂
  | cons a as ih =>
    cases bs with
    | nil => simp [charListLe] at h₁
    | cons b bs =>
      rcases lt_trichotomy a b with hab | hab | hab
      · simp [charListLe, hab, not_lt_of_lt hab] at h₂
      · subst hab
        simp only [charListLe, lt_irrefl, if_false] at h₁ h₂
        rw [ih h₁ h₂]
      · simp [charListLe, hab, not_lt_of_lt hab] at h₁

theorem strLe_total (a b : String) : strLe a b = true ∨ strLe b a = true :=
  charListLe_total a.data b.data

theorem strLe_trans {a b c : String} (h₁ : strLe a b = true)
    (h₂ : strLe b c = true) : strLe a c = true :=
  charListLe_trans h₁ h₂

theorem strLe_antisymm {a b : String} (h₁ : strLe a b = true)
    (h₂ : strLe b a = true) : a = b := by
  cases a; cases b
  exact congrArg String.mk (charListLe_antisymm h₁ h₂)

theorem insertField_perm (p : String × JsValue) (l : List (String × JsValue)) :
    List.Perm (insertField p l) (p :: l) := by
  induction l with
  | nil => exact List.Perm.refl _
  | cons q rest ih =>
    by_cases h : strLe p.1 q.1 = true
    · simp [insertField, h]
    · simp only [insertField, h, if_false]
      exact (ih.cons q).trans (List.Perm.swap p q rest)

theorem sortFieldsByKey_perm (l : List (String × JsValue)) :
    List.Perm (sortFieldsByKey l) l := by
  induction l with
  | nil => exact List.Perm.refl _
  | cons p rest ih =>
    exact (insertField_perm p (sortFieldsByKey rest)).trans (ih.cons p)

theorem mem_insertField {x p : String × JsValue} {l : List (String × JsValue)} :
    x ∈ insertField p l ↔ x = p ∨ x ∈ l := by
  constructor
  · intro h
    have := (insertField_perm p l).mem_iff.mp h
    simpa using this
  · intro h
    apply (insertField_perm p l).mem_iff.mpr
    simpa using h

theorem pairwise_insertField {p : String × JsValue}
    {l : List (String × JsValue)} (h : l.Pairwise keyLe) :
    (insertField p l).Pairwise keyLe := by
  induction l with
  | nil => simp [insertField, keyLe]
  | cons q rest ih =>
    rcases List.pairwise_cons.mp h with ⟨hq, hrest⟩
    by_cases hle : strLe p.1 q.1 = true
    · simp only [insertField, hle, if_true]
      refine List.pairwise_cons.mpr ⟨?_, h⟩
      intro x hx
      rcases List.mem_cons.mp hx with rfl | hx
      · exact hle
      · exact strLe_trans hle (hq x hx)
    · simp only [insertField, hle, if_false]
      refine List.pairwise_cons.mpr ⟨?_, ih hrest⟩
      intro x hx
      rcases mem_insertField.mp hx with hxp | hx
      · rcases strLe_total p.1 q.1 with h' | h'
        · exact absurd h' hle
        · rw [hxp]; exact h'
      · exact hq x hx

theorem pairwise_sortFieldsByKey (l : List (String × JsValue)) :
    (sortFieldsByKey l).Pairwise keyLe := by
  induction l with
  | nil => simp [sortFieldsByKey]
  | cons p rest ih => exact pairwise_insertField ih

theorem insertField_of_le {p q : String × JsValue}
    {rest : List (String × JsValue)} (h : strLe p.1 q.1 = true) :
    insertField p (q :: rest) = p :: q :: rest := by
  simp [insertField, h]

theorem sortFieldsByKey_of_pairwise {l : List (String × JsValue)}
    (h : l.Pairwise keyLe) : sortFieldsByKey l = l := by
  induction l with
  | nil => rfl
  | cons p rest ih =>
    rcases List.pairwise_cons.mp h with ⟨hp, hrest⟩
    rw [sortFieldsByKey, ih hrest]
    cases rest with
    | nil => rfl
    | cons q rest' => exact insertField_of_le (hp q (by simp))

theorem sortFieldsByKey_idem (l : List (String × JsValue)) :
    sortFieldsByKey (sortFieldsByKey l) = sortFieldsByKey l :=
  sortFieldsByKey_of_pairwise (pairwise_sortFieldsByKey l)

theorem sortFieldsByKey_eq_of_perm_of_nodupKeys
    {l₁ l₂ : List (String × JsValue)} (hp : List.Perm l₁ l₂)
    (hn : (l₁.map Prod.fst).Nodup) :
    sortFieldsByKey l₁ = sortFieldsByKey l₂ := by
  have hperm : List.Perm (sortFieldsByKey l₁) (sortFieldsByKey l₂) :=
    (sortFieldsByKey_perm l₁).trans (hp.trans (sortFieldsByKey_perm l₂).symm)
  have hne₁ : (sortFieldsByKey l₁).Pairwise (fun p q => p.1 ≠ q.1) := by
    have : ((sortFieldsByKey l₁).map Prod.fst).Nodup := by
      refine (List.Perm.nodup_iff ?_).mpr hn
      exact (sortFieldsByKey_perm l₁).map Prod.fst
    exact (List.pairwise_map).mp this
  have hn₂ : (l₂.map Prod.fst).Nodup := (List.Perm.nodup_iff (hp.map Prod.fst)).mp hn
  have hne₂ : (sortFieldsByKey l₂).Pairwise (fun p q => p.1 ≠ q.1) := by
    have : ((sortFieldsByKey l₂).map Prod.fst).Nodup := by
      refine (List.Perm.nodup_iff ?_).mpr hn₂
      exact (sortFieldsByKey_perm l₂).map Prod.fst
    exact (List.pairwise_map).mp this
  have hs₁ : (sortFieldsByKey l₁).Pairwise keyLt :=
    ((pairwise_sortFieldsByKey l₁).and hne₁).imp (fun h => ⟨h.1, h.2⟩)
  have hs₂ : (sortFieldsByKey l₂).Pairwise keyLt :=
    ((pairwise_sortFieldsByKey l₂).and hne₂).imp (fun h => ⟨h.1, h.2⟩)
  haveI : IsAntisymm (String × JsValue) keyLt :=
    ⟨fun _ _ h₁ h₂ => absurd (strLe_antisymm h₁.1 h₂.1) h₁.2⟩
  exact List.eq_of_perm_of_sorted hperm hs₁ hs₂

theorem normalizeValueList_eq_map (l : List JsValue) :
    normalizeValueList l = l.map normalizeValue := by
  induction l with
  | nil => rfl
  | cons v rest ih => rw [normalizeValueList, ih, List.map_cons]

theorem normalizeValueFields_eq_map (l : List (String × JsValue)) :
    normalizeValueFields l = l.map (fun p => (p.1, normalizeValue p.2)) := by
  induction l with
  | nil => rfl
  | cons p rest ih =>
    cases p
    rw [normalizeValueFields, ih, List.map_cons]

theorem insertField_map_normalize (p : String × JsValue)
    (l : List (String × JsValue)) :
    insertField (p.1, normalizeValue p.2)
        (l.map (fun q => (q.1, normalizeValue q.2)))
      = (insertField p l).map (fun q => (q.1, normalizeValue q.2)) := by
  induction l with
  | nil => rfl
  | cons q rest ih =>
    by_cases h : strLe p.1 q.1 = true
    · simp [insertField, h]
    · simp [insertField, h, ih]

theorem sortFieldsByKey_map_normalize (l : List (String × JsValue)) :
    sortFieldsByKey (l.map (fun q => (q.1, normalizeValue q.2)))
      = (sortFieldsByKey l).map (fun q => (q.1, normalizeValue q.2)) := by
  induction l with
  | nil => rfl
  | cons p rest ih =>
    simp only [List.map_cons, sortFieldsByKey, ih, insertField_map_normalize]

/-- The definition normalizes field values and then sorts; the source
sorts the keys first and then normalizes each looked-up value.  The two
agree because sorting inspects only the keys, which normalization
preserves. -/
theorem normalizeValue_obj_sortFirst (fields : List (String × JsValue)) :
    normalizeValue (.obj fields)
      = .obj (normalizeValueFields (sortFieldsByKey fields)) := by
  rw [normalizeValue, normalizeValueFields_eq_map, normalizeValueFields_eq_map,
    sortFieldsByKey_map_normalize]

theorem sizeOf_lt_of_mem_items {x : JsValue} {items : List JsValue}
    (h : x ∈ items) : sizeOf x < sizeOf (JsValue.arr items) := by
  have h1 := List.sizeOf_lt_of_mem h
  simp only [JsValue.arr.sizeOf_spec]
  omega

theorem sizeOf_snd_lt_of_mem_fields {p : String × JsValue}
    {fields : List (String × JsValue)} (h : p ∈ fields) :
    sizeOf p.2 < sizeOf (JsValue.obj fields) := by
  have h1 := List.sizeOf_lt_of_mem h
  have h2 : sizeOf p.2 < sizeOf p := by
    cases p with
    | mk k v => simp only [Prod.mk.sizeOf_spec]; omega
  simp only [JsValue.obj.sizeOf_spec]
  omega

theorem normalizeValue_idem (v : JsValue) :
    normalizeValue (normalizeValue v) = normalizeValue v := by
  have main : ∀ (n : Nat) (w : JsValue), sizeOf w ≤ n →
      normalizeValue (normalizeValue w) = normalizeValue w := by
    intro n
    induction n with
    | zero =>
      intro w hw
      exfalso
      cases w <;> simp_all
    | succ n ih =>
      intro w hw
      cases w with
      | null => rfl
      | bool b => rfl
      | num k => rfl
      | str s => rfl
      | arr items =>
        rw [normalizeValue, normalizeValue, normalizeValueList_eq_map,
          normalizeValueList_eq_map, List.map_map]
        congr 1
        apply List.map_congr_left
        intro x hx
        have := sizeOf_lt_of_mem_items hx
        exact ih x (by omega)
      | obj fields =>
        rw [normalizeValue, normalizeValue, normalizeValueFields_eq_map,
          normalizeValueFields_eq_map, sortFieldsByKey_map_normalize,
          sortFieldsByKey_idem]
        congr 1
        have hfix : ∀ p ∈ sortFieldsByKey
            (List.map (fun p => (p.1, normalizeValue p.2)) fields),
            (fun q => (q.1, normalizeValue q.2)) p = id p := by
          intro p hp
          have hmem := (sortFieldsByKey_perm _).mem_iff.mp hp
          rcases List.mem_map.mp hmem with ⟨q, hq, hfq⟩
          have hs := sizeOf_snd_lt_of_mem_fields hq
          simp only [id]
          rw [← hfq]
          simp only
          rw [ih q.2 (by omega)]
        rw [List.map_congr_left hfix, List.map_id]
  exact main (sizeOf v) v le_rfl

theorem normalizeValue_obj_perm {f₁ f₂ : List (String × JsValue)}
    (hp : List.Perm f₁ f₂) (hn : (f₁.map Prod.fst).Nodup) :
    normalizeValue (.obj f₁) = normalizeValue (.obj f₂) := by
  rw [normalizeValue, normalizeValue, normalizeValueFields_eq_map,
    normalizeValueFields_eq_map]
  congr 1
  apply sortFieldsByKey_eq_of_perm_of_nodupKeys
    (hp.map (fun q => (q.1, normalizeValue q.2)))
  have hkeys : (f₁.map (fun p => (p.1, normalizeValue p.2))).map Prod.fst
      = f₁.map Prod.fst := by
    rw [List.map_map]; rfl
  rw [hkeys]
  exact hn

theorem verdictOfResults_invariants (elapsedMs : Nat)
    (results : List CaseResult) :
    StrictVerdictInvariants (verdictOfResults elapsedMs results) := by
  by_cases h : (results.filter (fun r => r.passed)).length = results.length
  · have hs : verdictStatus results = .accepted := by simp [verdictStatus, h]
    refine ⟨rfl, rfl, ?_, ?_, ?_⟩
    · show verdictStatus results = _ ↔ _
      rw [hs]
      exact iff_of_true rfl h
    · show verdictStatus results = _ ↔ _
      rw [hs]
      exact iff_of_false (by decide) (fun hcon => hcon.2 h)
    · show verdictStatus results = _ ↔ _
      rw [hs]
      exact iff_of_false (by decide) (fun hcon => hcon.2 h)
  · by_cases he : results.any caseErrorTruthy = true
    · have hs : verdictStatus results = .runtime_error := by
        simp [verdictStatus, h, he]
      have hex : ∃ r ∈ results, caseErrorTruthy r = true := by
        simpa [List.any_eq_true] using he
      refine ⟨rfl, rfl, ?_, ?_, ?_⟩
      · show verdictStatus results = _ ↔ _
        rw [hs]
        exact iff_of_false (by decide) (fun hp => h hp)
      · show verdictStatus results = _ ↔ _
        rw [hs]
        exact iff_of_true rfl ⟨hex, h⟩
      · show verdictStatus results = _ ↔ _
        rw [hs]
        refine iff_of_false (by decide) ?_
        rintro ⟨hall, -⟩
        obtain ⟨r, hr, htr⟩ := hex
        rw [hall r hr] at htr
        cases htr
    · have hs : verdictStatus results = .wrong_answer := by
        simp [verdictStatus, h, he]
      have hall : ∀ r ∈ results, caseErrorTruthy r = false := by
        intro r hr
        cases hx : caseErrorTruthy r
        · rfl
        · exact absurd (List.any_eq_true.mpr ⟨r, hr, hx⟩) he
      refine ⟨rfl, rfl, ?_, ?_, ?_⟩
      · show verdictStatus results = _ ↔ _
        rw [hs]
        exact iff_of_false (by decide) (fun hp => h hp)
      · show verdictStatus results = _ ↔ _
        rw [hs]
        refine iff_of_false (by decide) ?_
        rintro ⟨⟨r, hr, htr⟩, -⟩
        rw [hall r hr] at htr
        cases htr
      · show verdictStatus results = _ ↔ _
        rw [hs]
        exact iff_of_true rfl ⟨hall, h⟩

theorem fatal_results_filter (message : String) (testCases : List TestCase) :
    (buildFatalRunResult message testCases).results.filter (fun r => r.passed)
      = [] := by
  show (testCases.map _).filter _ = []
  induction testCases with
  | nil => rfl
  | cons tc rest ih => simp [List.filter, ih]

theorem buildFatalRunResult_invariants (message : String)
    (testCases : List TestCase) (hne : testCases ≠ []) (hmsg : message ≠ "") :
    StrictVerdictInvariants (buildFatalRunResult message testCases) := by
  obtain ⟨tc, rest, rfl⟩ : ∃ tc rest, testCases = tc :: rest := by
    cases testCases with
    | nil => exact absurd rfl hne
    | cons tc rest => exact ⟨tc, rest, rfl⟩
  have htruthy : caseErrorTruthy { input := tc.input, expected := tc.output, actual := none, passed := false, error := some message } = true := by
    simp [caseErrorTruthy, hmsg]
  have hmem : ({ input := tc.input, expected := tc.output, actual := none, passed := false, error := some message } : CaseResult) ∈ (buildFatalRunResult message (tc :: rest)).results := by
    simp [buildFatalRunResult]
  refine ⟨by simp [buildFatalRunResult], ?_, ?_, ?_, ?_⟩
  · show (0 : Nat) = _
    rw [fatal_results_filter]
    rfl
  · show Status.runtime_error = Status.accepted ↔ (0 : Nat) = _
    exact iff_of_false (by decide) (by simp [buildFatalRunResult])
  · show Status.runtime_error = Status.runtime_error ↔ _
    refine iff_of_true rfl ⟨⟨_, hmem, htruthy⟩, by simp [buildFatalRunResult]⟩
  · show Status.runtime_error = Status.wrong_answer ↔ _
    refine iff_of_false (by decide) ?_
    rintro ⟨hall, -⟩
    rw [hall _ hmem] at htruthy
    cases htruthy

theorem runJavascriptExecutionOnly_total (runScript : Except String Unit)
    (elapsedMs : Nat) (testCases : List TestCase) :
    (runJavascriptExecutionOnly runScript elapsedMs testCases).total
      = (syntheticCases testCases).length := by
  unfold runJavascriptExecutionOnly
  cases runScript <;> rfl

theorem runPythonExecutionOnlyAux_total (spawnNoInput : PyAttempt → SpawnOutcome)
    (elapsedMs : Nat) (syntheticList : List TestCase)
    (attempts : List PyAttempt) :
    (runPythonExecutionOnlyAux spawnNoInput elapsedMs syntheticList
      attempts).total = syntheticList.length := by
  induction attempts with
  | nil => rfl
  | cons attempt rest ih =>
    unfold runPythonExecutionOnlyAux
    cases spawnNoInput attempt with
    | failed errCode message =>
      dsimp only
      by_cases h : errCode = "ENOENT"
      · rw [if_pos h]
        exact ih
      · rw [if_neg h]
    | completed exitStatus stdout stderr =>
      dsimp only
      by_cases h : exitStatus ≠ 0
      · rw [if_pos h]
      · rw [if_neg h]

/-- C1 counterexample.  The claim's invariants fail on two reachable
strict-mode verdicts.  (a) A JavaScript resolution failure over an empty
test-case list yields `passed == total` (0 == 0) with status
RuntimeError, not Accepted, refuting "status is Accepted if and only if
passed == total".  (b) A case whose execution throws an `Error` with an
empty message carries `error == ""`, which is falsy in
`results.some((result) => result.error)`, so the verdict is WrongAnswer
even though a CaseResult carries an error and not all cases passed,
refuting the RuntimeError biconditional. -/
theorem C1_counterexample :
    (fatalEmptyVerdict.passed = fatalEmptyVerdict.total ∧
      fatalEmptyVerdict.status ≠ Status.accepted) ∧
    ((∃ r ∈ emptyMessageVerdict.results, r.error ≠ none) ∧
      emptyMessageVerdict.passed ≠ emptyMessageVerdict.total ∧
      emptyMessageVerdict.status = Status.wrong_answer) := by
  constructor
  · exact ⟨rfl, by decide⟩
  · exact ⟨by decide, by decide, by decide⟩

/-- C1 (amended).  For every strict-mode verdict: `results.length ==
total` and `passed` counts the passing results unconditionally; whenever
the verdict comes from the per-case loop (every Python verdict, and
every JavaScript verdict whose resolution succeeded and whose resolved
`__solution` is a function) the status biconditionals hold with "carries
an error" read as carrying a non-empty error message; and a JavaScript
resolution failure always produces the fatal RuntimeError verdict, whose
biconditionals hold whenever the test-case list is non-empty and the
failure message is non-empty. -/
theorem C1_strict_verdict_invariants (jsEnv : JsEnv) (pyEnv : PyEnv)
    (code : String) (testCases : List TestCase)
    (expectedFunctionName : Option String) (mode : ExecutionMode) :
    ((runJavascriptAgainstTestCases jsEnv code testCases expectedFunctionName
          mode).results.length
        = (runJavascriptAgainstTestCases jsEnv code testCases
            expectedFunctionName mode).total
      ∧ (runJavascriptAgainstTestCases jsEnv code testCases
            expectedFunctionName mode).passed
        = ((runJavascriptAgainstTestCases jsEnv code testCases
              expectedFunctionName mode).results.filter
            (fun r => r.passed)).length) ∧
    (∀ resolvedCallable,
      resolveJavascriptCallable jsEnv code expectedFunctionName
          = .ok resolvedCallable →
      jsEnv.solutionIsFunction = true →
      StrictVerdictInvariants (runJavascriptAgainstTestCases jsEnv code
        testCases expectedFunctionName mode)) ∧
    StrictVerdictInvariants (runPythonAgainstTestCases pyEnv code testCases
      expectedFunctionName mode) ∧
    (∀ message,
      resolveJavascriptCallable jsEnv code expectedFunctionName
          = .error message →
      runJavascriptAgainstTestCases jsEnv code testCases expectedFunctionName
          mode = buildFatalRunResult message testCases ∧
      (testCases ≠ [] → message ≠ "" →
        StrictVerdictInvariants (runJavascriptAgainstTestCases jsEnv code
          testCases expectedFunctionName mode))) := by
  refine ⟨?_, ?_, ?_, ?_⟩
  · cases hres : resolveJavascriptCallable jsEnv code expectedFunctionName with
    | error message =>
      have hrun : runJavascriptAgainstTestCases jsEnv code testCases
          expectedFunctionName mode = buildFatalRunResult message testCases := by
        unfold runJavascriptAgainstTestCases
        rw [hres]
      rw [hrun]
      refine ⟨by simp [buildFatalRunResult], ?_⟩
      rw [fatal_results_filter]
      rfl
    | ok resolvedCallable =>
      cases hsol : jsEnv.solutionIsFunction with
      | false =>
        have hrun : runJavascriptAgainstTestCases jsEnv code testCases
            expectedFunctionName mode
              = buildFatalRunResult "No callable solution function found."
                  testCases := by
          unfold runJavascriptAgainstTestCases
          rw [hres, hsol]
          rfl
        rw [hrun]
        refine ⟨by simp [buildFatalRunResult], ?_⟩
        rw [fatal_results_filter]
        rfl
      | true =>
        have hrun : runJavascriptAgainstTestCases jsEnv code testCases
            expectedFunctionName mode
              = verdictOfResults jsEnv.elapsedMs
                  (testCases.map (jsRunCase jsEnv resolvedCallable mode)) := by
          unfold runJavascriptAgainstTestCases
          rw [hres, hsol]
          rfl
        rw [hrun]
        exact ⟨rfl, rfl⟩
  · intro resolvedCallable hres hsol
    have hrun : runJavascriptAgainstTestCases jsEnv code testCases
        expectedFunctionName mode
          = verdictOfResults jsEnv.elapsedMs
              (testCases.map (jsRunCase jsEnv resolvedCallable mode)) := by
      unfold runJavascriptAgainstTestCases
      rw [hres, hsol]
      rfl
    rw [hrun]
    exact verdictOfResults_invariants _ _
  · exact verdictOfResults_invariants pyEnv.elapsedMs
      (testCases.map (pyRunCase pyEnv code (findPythonFunctionSignature code)
        expectedFunctionName mode))
  · intro message hres
    have hrun : runJavascriptAgainstTestCases jsEnv code testCases
        expectedFunctionName mode = buildFatalRunResult message testCases := by
      unfold runJavascriptAgainstTestCases
      rw [hres]
    refine ⟨hrun, fun hne hmsg => ?_⟩
    rw [hrun]
    exact buildFatalRunResult_invariants message testCases hne hmsg

/-- C1 witness: the amended invariants instantiated at a solved
JavaScript run, a Python run, and a concrete resolution failure. -/
theorem C1_strict_verdict_invariants_witness :
    StrictVerdictInvariants (runJavascriptAgainstTestCases solvedJsEnv
      "function solve(x) \x7b return x; \x7d"
      [{ input := "x = 1", output := "1" }] none .strict) ∧
    StrictVerdictInvariants (runPythonAgainstTestCases stubPyEnv
      "def solve(x):\n    return x"
      [{ input := "x = 1", output := "1" }] none .strict) ∧
    runJavascriptAgainstTestCases fatalEmptyJsEnv "("
        [{ input := "x = 1", output := "1" }] none .strict
      = buildFatalRunResult "Unexpected token"
          [{ input := "x = 1", output := "1" }] :=
  ⟨(C1_strict_verdict_invariants solvedJsEnv stubPyEnv
        "function solve(x) \x7b return x; \x7d"
        [{ input := "x = 1", output := "1" }] none .strict).2.1
      ⟨["x"], 1, .globalFn "solve"⟩ rfl rfl,
   (C1_strict_verdict_invariants solvedJsEnv stubPyEnv
        "def solve(x):\n    return x"
        [{ input := "x = 1", output := "1" }] none .strict).2.2.1,
   ((C1_strict_verdict_invariants fatalEmptyJsEnv stubPyEnv "("
        [{ input := "x = 1", output := "1" }] none .strict).2.2.2
      "Unexpected token" rfl).1⟩

/-- C2: canonical normalization is idempotent, insensitive to object key
order (both on the claim's concrete instance and for any key-permutation
of an object with distinct keys), sensitive to array element order;
arrays recurse element-wise preserving order, objects recurse with keys
sorted lexicographically, and all other values pass through unchanged. -/
theorem C2_normalize_canonical :
    (∀ v : JsValue, normalizeValue (normalizeValue v) = normalizeValue v) ∧
    normalize (.obj [("a", .num 1), ("b", .num 2)])
      = normalize (.obj [("b", .num 2), ("a", .num 1)]) ∧
    normalize (.arr [.num 1, .num 2]) ≠ normalize (.arr [.num 2, .num 1]) ∧
    (∀ f₁ f₂ : List (String × JsValue), List.Perm f₁ f₂ →
      (f₁.map Prod.fst).Nodup →
      normalizeValue (.obj f₁) = normalizeValue (.obj f₂)) ∧
    (∀ items : List JsValue,
      normalizeValue (.arr items) = .arr (items.map normalizeValue)) ∧
    (∀ fields : List (String × JsValue),
      normalizeValue (.obj fields)
        = .obj (sortFieldsByKey
            (fields.map (fun p => (p.1, normalizeValue p.2)))) ∧
      (sortFieldsByKey
          (fields.map (fun p => (p.1, normalizeValue p.2)))).Pairwise keyLe) ∧
    normalizeValue .null = .null ∧
    (∀ b, normalizeValue (.bool b) = .bool b) ∧
    (∀ n : Int, normalizeValue (.num n) = .num n) ∧
    (∀ s : String, normalizeValue (.str s) = .str s) := by
  refine ⟨normalizeValue_idem, by decide, by decide,
    fun f₁ f₂ hp hn => normalizeValue_obj_perm hp hn, ?_, ?_,
    rfl, fun b => rfl, fun n => rfl, fun s => rfl⟩
  · intro items
    rw [normalizeValue, normalizeValueList_eq_map]
  · intro fields
    exact ⟨by rw [normalizeValue, normalizeValueFields_eq_map],
      pairwise_sortFieldsByKey _⟩

/-- C2 witness: the key-permutation conjunct applied at the claim's
concrete object. -/
theorem C2_normalize_canonical_witness :
    normalizeValue (.obj [("a", .num 1), ("b", .num 2)])
      = normalizeValue (.obj [("b", .num 2), ("a", .num 1)]) :=
  C2_normalize_canonical.2.2.2.1
    [("a", JsValue.num 1), ("b", JsValue.num 2)]
    [("b", JsValue.num 2), ("a", JsValue.num 1)]
    (List.Perm.swap ("b", JsValue.num 2) ("a", JsValue.num 1) [])
    (by decide)

/-- C3: the argument binder returns the map values in parameter-name
order when every declared parameter name is a key of the parsed map;
otherwise it takes parsed values in discovery order restricted to present
names, truncating to `fallbackArity` when the parameter list is empty and
`fallbackArity > 0`, passing all discovered values when the parameter
list is empty and `fallbackArity = 0`, and truncating to the number of
parameter names otherwise. -/
theorem C3_buildCallArgs_spec (signatureArgs : List String)
    (inputByName : List (String × JsValue)) (inputOrder : List String)
    (fallbackArity : Nat) :
    (signatureArgs ≠ [] →
      (∀ argName ∈ signatureArgs,
        hasOwnProperty inputByName argName = true) →
      buildCallArgs signatureArgs inputByName inputOrder fallbackArity
        = signatureArgs.map (fun argName => recordGet inputByName argName)) ∧
    (¬(signatureArgs ≠ [] ∧ ∀ argName ∈ signatureArgs,
        hasOwnProperty inputByName argName = true) →
      (signatureArgs = [] →
        (0 < fallbackArity →
          buildCallArgs signatureArgs inputByName inputOrder fallbackArity
            = ((inputOrder.filter
                  (fun name => hasOwnProperty inputByName name)).map
                (fun name => recordGet inputByName name)).take fallbackArity) ∧
        (fallbackArity = 0 →
          buildCallArgs signatureArgs inputByName inputOrder fallbackArity
            = (inputOrder.filter
                  (fun name => hasOwnProperty inputByName name)).map
                (fun name => recordGet inputByName name))) ∧
      (signatureArgs ≠ [] →
        buildCallArgs signatureArgs inputByName inputOrder fallbackArity
          = ((inputOrder.filter
                (fun name => hasOwnProperty inputByName name)).map
              (fun name => recordGet inputByName name)).take
            signatureArgs.length)) := by
  have hiff : ((decide (signatureArgs.length > 0) &&
        signatureArgs.all (fun argName => hasOwnProperty inputByName argName))
          = true)
      ↔ (signatureArgs ≠ [] ∧ ∀ argName ∈ signatureArgs,
          hasOwnProperty inputByName argName = true) := by
    simp [List.all_eq_true, List.length_pos]
  by_cases hc : signatureArgs ≠ [] ∧ ∀ argName ∈ signatureArgs,
      hasOwnProperty inputByName argName = true
  · have hbool := hiff.mpr hc
    constructor
    · intro _ _
      simp only [buildCallArgs, hbool, if_true]
    · intro hnc
      exact absurd hc hnc
  · have hbool : ¬((decide (signatureArgs.length > 0) &&
        signatureArgs.all (fun argName => hasOwnProperty inputByName argName))
          = true) := fun hb => hc (hiff.mp hb)
    have hbool' : (decide (signatureArgs.length > 0) &&
        signatureArgs.all (fun argName => hasOwnProperty inputByName argName))
          = false := by
      cases hb : (decide (signatureArgs.length > 0) &&
          signatureArgs.all (fun argName => hasOwnProperty inputByName argName))
      · rfl
      · exact absurd hb hbool
    constructor
    · intro hne hall
      exact absurd ⟨hne, hall⟩ hc
    · intro _
      constructor
      · intro hsig
        subst hsig
        constructor
        · intro hfa
          simp [buildCallArgs, hfa]
        · intro hfa
          subst hfa
          simp [buildCallArgs]
      · intro hne
        have hlen : signatureArgs.length ≠ 0 := by
          simpa [List.length_eq_zero] using hne
        simp [buildCallArgs, hbool', hlen]

/-- C3 witness: both branches of the binder exercised at concrete
inputs. -/
theorem C3_buildCallArgs_spec_witness :
    buildCallArgs ["nums", "target"]
        [("nums", .arr [.num 2, .num 7]), ("target", .num 9)]
        ["nums", "target"] 2
      = [.arr [.num 2, .num 7], .num 9] ∧
    buildCallArgs []
        [("nums", .arr [.num 2, .num 7]), ("target", .num 9)]
        ["nums", "target"] 1
      = [.arr [.num 2, .num 7]] := by
  constructor
  · rw [(C3_buildCallArgs_spec ["nums", "target"]
      [("nums", .arr [.num 2, .num 7]), ("target", .num 9)]
      ["nums", "target"] 2).1 (by decide) (by decide)]
    rfl
  · rw [(((C3_buildCallArgs_spec []
      [("nums", .arr [.num 2, .num 7]), ("target", .num 9)]
      ["nums", "target"] 1).2 (by simp)).1 rfl).1 (by decide)]
    rfl

/-- C4: when JavaScript signature resolution fails with a message, strict
grading returns exactly `buildFatalRunResult message testCases` — a
Verdict with status RuntimeError, passed 0, total the number of test
cases, every CaseResult failed and carrying that same message.  The
equality to `buildFatalRunResult message testCases` (a function of only
the message and the test-case list) shows no per-case resolution or
execution oracle is consulted. -/
theorem C4_resolution_failure_fatal (jsEnv : JsEnv) (code : String)
    (testCases : List TestCase) (expectedFunctionName : Option String)
    (mode : ExecutionMode) (message : String)
    (hres : resolveJavascriptCallable jsEnv code expectedFunctionName
      = .error message) :
    runJavascriptAgainstTestCases jsEnv code testCases expectedFunctionName
        mode = buildFatalRunResult message testCases ∧
    (runJavascriptAgainstTestCases jsEnv code testCases expectedFunctionName
        mode).status = .runtime_error ∧
    (runJavascriptAgainstTestCases jsEnv code testCases expectedFunctionName
        mode).passed = 0 ∧
    (runJavascriptAgainstTestCases jsEnv code testCases expectedFunctionName
        mode).total = testCases.length ∧
    (∀ r ∈ (runJavascriptAgainstTestCases jsEnv code testCases
        expectedFunctionName mode).results,
      r.passed = false ∧ r.error = some message) := by
  have hrun : runJavascriptAgainstTestCases jsEnv code testCases
      expectedFunctionName mode = buildFatalRunResult message testCases := by
    unfold runJavascriptAgainstTestCases
    rw [hres]
  refine ⟨hrun, by rw [hrun]; rfl, by rw [hrun]; rfl, by rw [hrun]; rfl, ?_⟩
  rw [hrun]
  intro r hr
  simp only [buildFatalRunResult, List.mem_map] at hr
  obtain ⟨tc, _, rfl⟩ := hr
  exact ⟨rfl, rfl⟩

/-- C4 witness: the fatal shape at a concrete resolution failure. -/
theorem C4_resolution_failure_fatal_witness :
    runJavascriptAgainstTestCases fatalEmptyJsEnv "("
        [{ input := "x = 1", output := "1" },
         { input := "x = 2", output := "2" }] none .strict
      = buildFatalRunResult "Unexpected token"
          [{ input := "x = 1", output := "1" },
           { input := "x = 2", output := "2" }] :=
  (C4_resolution_failure_fatal fatalEmptyJsEnv "("
    [{ input := "x = 1", output := "1" },
     { input := "x = 2", output := "2" }] none .strict
    "Unexpected token" rfl).1

/-- C5: in strict mode each test case is processed by its own
try/catch-wrapped pipeline: the verdict's results are exactly the map of
the per-case function over the test-case list (so a throwing case yields
its own failed CaseResult and every other — in particular every
subsequent — case still produces its own result, and nothing escapes to
the caller); result `i` depends only on test case `i`; and a case whose
parse/bind/run pipeline throws materializes as passed = false with the
thrown message as its error. -/
theorem C5_per_case_isolation (jsEnv : JsEnv) (pyEnv : PyEnv) (code : String)
    (testCases : List TestCase) (expectedFunctionName : Option String)
    (mode : ExecutionMode) (resolvedCallable : JsResolvedCallable)
    (hres : resolveJavascriptCallable jsEnv code expectedFunctionName
      = .ok resolvedCallable)
    (hsol : jsEnv.solutionIsFunction = true) :
    ((runJavascriptAgainstTestCases jsEnv code testCases expectedFunctionName
        mode).results
      = testCases.map (jsRunCase jsEnv resolvedCallable mode)) ∧
    (∀ i : Nat,
      (runJavascriptAgainstTestCases jsEnv code testCases expectedFunctionName
          mode).results[i]?
        = (testCases[i]?).map (jsRunCase jsEnv resolvedCallable mode)) ∧
    (∀ testCase message,
      jsCaseSteps jsEnv resolvedCallable testCase = .error message →
      jsRunCase jsEnv resolvedCallable mode testCase
        = { input := testCase.input, expected := testCase.output,
            actual := none, passed := false, error := some message }) ∧
    ((runPythonAgainstTestCases pyEnv code testCases expectedFunctionName
        mode).results
      = testCases.map (pyRunCase pyEnv code (findPythonFunctionSignature code)
          expectedFunctionName mode)) ∧
    (∀ i : Nat,
      (runPythonAgainstTestCases pyEnv code testCases expectedFunctionName
          mode).results[i]?
        = (testCases[i]?).map (pyRunCase pyEnv code
            (findPythonFunctionSignature code) expectedFunctionName mode)) ∧
    (∀ testCase message,
      pyCaseSteps pyEnv code (findPythonFunctionSignature code)
          expectedFunctionName testCase = .error message →
      pyRunCase pyEnv code (findPythonFunctionSignature code)
          expectedFunctionName mode testCase
        = { input := testCase.input, expected := testCase.output,
            actual := none, passed := false, error := some message }) := by
  have hrun : runJavascriptAgainstTestCases jsEnv code testCases
      expectedFunctionName mode
        = verdictOfResults jsEnv.elapsedMs
            (testCases.map (jsRunCase jsEnv resolvedCallable mode)) := by
    unfold runJavascriptAgainstTestCases
    rw [hres, hsol]
    rfl
  refine ⟨by rw [hrun]; rfl, ?_, ?_, rfl, ?_, ?_⟩
  · intro i
    rw [hrun]
    exact List.getElem?_map ..
  · intro testCase message hstep
    unfold jsRunCase
    rw [hstep]
  · intro i
    exact List.getElem?_map ..
  · intro testCase message hstep
    unfold pyRunCase
    rw [hstep]

/-- C5 witness: a first case whose assignment parsing throws still
yields its own failed CaseResult while the grading returns the mapped
results for the whole list. -/
theorem C5_per_case_isolation_witness :
    ((runJavascriptAgainstTestCases throwingParseJsEnv
        "function solve(x) \x7b return x; \x7d"
        [{ input := "x = 1", output := "1" },
         { input := "y = 2", output := "2" }] none .strict).results
      = [{ input := "x = 1", output := "1" },
         { input := "y = 2", output := "2" }].map
          (jsRunCase throwingParseJsEnv
            ⟨["x"], 1, .globalFn "solve"⟩ .strict)) ∧
    jsRunCase throwingParseJsEnv ⟨["x"], 1, .globalFn "solve"⟩ .strict
        { input := "x = 1", output := "1" }
      = { input := "x = 1", expected := "1", actual := none,
          passed := false, error := some "Unexpected token in assignment" } :=
  ⟨(C5_per_case_isolation throwingParseJsEnv stubPyEnv
      "function solve(x) \x7b return x; \x7d"
      [{ input := "x = 1", output := "1" },
       { input := "y = 2", output := "2" }] none .strict
      ⟨["x"], 1, .globalFn "solve"⟩ rfl rfl).1,
   (C5_per_case_isolation throwingParseJsEnv stubPyEnv
      "function solve(x) \x7b return x; \x7d"
      [{ input := "x = 1", output := "1" },
       { input := "y = 2", output := "2" }] none .strict
      ⟨["x"], 1, .globalFn "solve"⟩ rfl rfl).2.2.1
     { input := "x = 1", output := "1" }
     "Unexpected token in assignment" rfl⟩

/-- C6: with mode ExecutionOnly the orchestrator dispatches straight to
the language runner's execution-only path — the result is a function of
only the script-evaluation (JavaScript) or whole-script spawn (Python)
oracles, so no signature resolution or resolved-function call is
consulted; an empty test-case list produces exactly one synthetic case;
error-free evaluation yields an Accepted verdict with every case passed
(expected outputs are never compared); a throwing evaluation (or, for
Python, a failing or non-zero-exit process) yields RuntimeError with
passed = 0. -/
theorem C6_execution_only (jsEnv : JsEnv) (pyEnv : PyEnv) (code : String)
    (testCases : List TestCase) (expectedFunctionName : Option String) :
    runAgainstTestCases jsEnv pyEnv code testCases .javascript
        expectedFunctionName .execution_only
      = runJavascriptExecutionOnly jsEnv.runScript jsEnv.elapsedMs testCases ∧
    runAgainstTestCases jsEnv pyEnv code testCases .python
        expectedFunctionName .execution_only
      = runPythonExecutionOnly pyEnv.spawnNoInput pyEnv.elapsedMs code
          testCases ∧
    (testCases = [] →
      (runJavascriptExecutionOnly jsEnv.runScript jsEnv.elapsedMs
          testCases).total = 1 ∧
      (runPythonExecutionOnly pyEnv.spawnNoInput pyEnv.elapsedMs code
          testCases).total = 1) ∧
    (jsEnv.runScript = .ok () →
      (runJavascriptExecutionOnly jsEnv.runScript jsEnv.elapsedMs
          testCases).status = .accepted ∧
      (runJavascriptExecutionOnly jsEnv.runScript jsEnv.elapsedMs
          testCases).passed
        = (runJavascriptExecutionOnly jsEnv.runScript jsEnv.elapsedMs
            testCases).total ∧
      (∀ r ∈ (runJavascriptExecutionOnly jsEnv.runScript jsEnv.elapsedMs
          testCases).results, r.passed = true)) ∧
    (∀ message, jsEnv.runScript = .error message →
      (runJavascriptExecutionOnly jsEnv.runScript jsEnv.elapsedMs
          testCases).status = .runtime_error ∧
      (runJavascriptExecutionOnly jsEnv.runScript jsEnv.elapsedMs
          testCases).passed = 0 ∧
      (∀ r ∈ (runJavascriptExecutionOnly jsEnv.runScript jsEnv.elapsedMs
          testCases).results, r.passed = false ∧ r.error = some message)) ∧
    (∀ stdout stderr,
      pyEnv.spawnNoInput { cmd := "python", args := ["-c", code] }
          = .completed 0 stdout stderr →
      (runPythonExecutionOnly pyEnv.spawnNoInput pyEnv.elapsedMs code
          testCases).status = .accepted ∧
      (runPythonExecutionOnly pyEnv.spawnNoInput pyEnv.elapsedMs code
          testCases).passed
        = (runPythonExecutionOnly pyEnv.spawnNoInput pyEnv.elapsedMs code
            testCases).total) ∧
    (∀ exitStatus stdout stderr, exitStatus ≠ 0 →
      pyEnv.spawnNoInput { cmd := "python", args := ["-c", code] }
          = .completed exitStatus stdout stderr →
      (runPythonExecutionOnly pyEnv.spawnNoInput pyEnv.elapsedMs code
          testCases).status = .runtime_error ∧
      (runPythonExecutionOnly pyEnv.spawnNoInput pyEnv.elapsedMs code
          testCases).passed = 0) := by
  refine ⟨rfl, rfl, ?_, ?_, ?_, ?_, ?_⟩
  · intro hempty
    subst hempty
    exact ⟨runJavascriptExecutionOnly_total jsEnv.runScript jsEnv.elapsedMs [],
      runPythonExecutionOnlyAux_total pyEnv.spawnNoInput pyEnv.elapsedMs
        (syntheticCases []) (pythonExecAttempts code)⟩
  · intro hscript
    rw [show runJavascriptExecutionOnly jsEnv.runScript jsEnv.elapsedMs
        testCases = runJavascriptExecutionOnly (.ok ()) jsEnv.elapsedMs
        testCases from by rw [hscript]]
    refine ⟨rfl, rfl, ?_⟩
    intro r hr
    simp only [runJavascriptExecutionOnly, List.mem_map] at hr
    obtain ⟨tc, _, rfl⟩ := hr
    rfl
  · intro message hscript
    rw [show runJavascriptExecutionOnly jsEnv.runScript jsEnv.elapsedMs
        testCases = runJavascriptExecutionOnly (.error message)
        jsEnv.elapsedMs testCases from by rw [hscript]]
    refine ⟨rfl, rfl, ?_⟩
    intro r hr
    simp only [runJavascriptExecutionOnly, List.mem_map] at hr
    obtain ⟨tc, _, rfl⟩ := hr
    exact ⟨rfl, rfl⟩
  · intro stdout stderr hspawn
    have hrw : runPythonExecutionOnly pyEnv.spawnNoInput pyEnv.elapsedMs code
        testCases
          = runPythonExecutionOnlyAux pyEnv.spawnNoInput pyEnv.elapsedMs
              (syntheticCases testCases)
              ({ cmd := "python", args := ["-c", code] }
                :: [{ cmd := "py", args := ["-3", "-c", code] }]) := rfl
    rw [hrw]
    unfold runPythonExecutionOnlyAux
    rw [hspawn]
    simp
  · intro exitStatus stdout stderr hne hspawn
    have hrw : runPythonExecutionOnly pyEnv.spawnNoInput pyEnv.elapsedMs code
        testCases
          = runPythonExecutionOnlyAux pyEnv.spawnNoInput pyEnv.elapsedMs
              (syntheticCases testCases)
              ({ cmd := "python", args := ["-c", code] }
                :: [{ cmd := "py", args := ["-3", "-c", code] }]) := rfl
    rw [hrw]
    unfold runPythonExecutionOnlyAux
    rw [hspawn]
    dsimp only
    rw [if_pos hne]
    exact ⟨rfl, rfl⟩

/-- C6 witness: dispatch, the synthetic case, and both evaluation
outcomes at concrete oracles. -/
theorem C6_execution_only_witness :
    runAgainstTestCases stubJsEnv stubPyEnv "1 + 1" [] .javascript none
        .execution_only
      = runJavascriptExecutionOnly stubJsEnv.runScript stubJsEnv.elapsedMs [] ∧
    (runJavascriptExecutionOnly stubJsEnv.runScript stubJsEnv.elapsedMs
        []).total = 1 ∧
    (runJavascriptExecutionOnly stubJsEnv.runScript stubJsEnv.elapsedMs
        []).status = .accepted ∧
    (runPythonExecutionOnly pyOkEnv.spawnNoInput pyOkEnv.elapsedMs "print(1)"
        []).status = .accepted :=
  ⟨(C6_execution_only stubJsEnv stubPyEnv "1 + 1" [] none).1,
   ((C6_execution_only stubJsEnv stubPyEnv "1 + 1" [] none).2.2.1 rfl).1,
   ((C6_execution_only stubJsEnv stubPyEnv "1 + 1" [] none).2.2.2.1 rfl).1,
   ((C6_execution_only stubJsEnv pyOkEnv "print(1)" [] none).2.2.2.2.2.1
      "" "" rfl).1⟩

/-- C7 counterexample.  On a submission whose class body's first
method-like match is `_helper(x)` while a non-underscore-prefixed method
`solve(a)` follows, the scanner and the resolver bind `_helper` (with its
parameter names), not the first non-underscore-prefixed method claimed:
the method-name character class `[A-Za-z_$]` accepts a leading
underscore, and no underscore filtering is performed on the JavaScript
path. -/
theorem C7_counterexample :
    findJsClassMethodSignature cexClassCode
      = some { className := "A", methodName := "_helper", args := ["x"] } ∧
    resolveJavascriptCallable cexClassJsEnv cexClassCode none
      = .ok { argNames := ["x"], fallbackArity := 1,
              target := .classMethod "A" "_helper" } ∧
    underscoreFirst "_helper" = true := by
  refine ⟨by decide, ?_, by decide⟩
  rfl

/-- C7 (amended): when step 1 (expected-name probe) and step 2
(declaration scan) both fail to bind and the class scanner finds a class
with a method-like match, the resolver binds the callable to
constructing an instance of that class and calling the first
method-like match in the captured class body — regardless of any
underscore prefix on its name — with that method's declared parameter
names as argNames and their count as the fallback arity. -/
theorem C7_class_method_binding (jsEnv : JsEnv) (code : String)
    (expectedFunctionName : Option String) (classMethod : ClassMethodSig)
    (hscript : jsEnv.runScript = .ok ())
    (hstep1 : ∀ name, expectedFunctionName = some name →
      jsEnv.isFunction name = false)
    (hstep2 : ∀ signature, findFunctionSignature code = some signature →
      jsEnv.isFunction signature.name = false)
    (hclass : findJsClassMethodSignature code = some classMethod)
    (hctor : jsEnv.isFunction classMethod.className = true) :
    resolveJavascriptCallable jsEnv code expectedFunctionName
      = .ok { argNames := classMethod.args,
              fallbackArity := classMethod.args.length,
              target := .classMethod classMethod.className
                classMethod.methodName } := by
  have hchain : resolveViaDeclaredSignature jsEnv code
      = .ok { argNames := classMethod.args,
              fallbackArity := classMethod.args.length,
              target := .classMethod classMethod.className
                classMethod.methodName } := by
    have hclassStep : resolveViaClassMethod jsEnv code
        = .ok { argNames := classMethod.args,
                fallbackArity := classMethod.args.length,
                target := .classMethod classMethod.className
                  classMethod.methodName } := by
      unfold resolveViaClassMethod
      rw [hclass]
      dsimp only
      rw [hctor]
      rfl
    unfold resolveViaDeclaredSignature
    cases hsig : findFunctionSignature code with
    | none => exact hclassStep
    | some signature =>
      dsimp only
      rw [hstep2 signature hsig]
      exact hclassStep
  unfold resolveJavascriptCallable
  rw [hscript]
  cases expectedFunctionName with
  | none => exact hchain
  | some name =>
    dsimp only
    rw [hstep1 name rfl]
    exact hchain

/-- C7 witness: the amended binding at a concrete class submission. -/
theorem C7_class_method_binding_witness :
    resolveJavascriptCallable clsJsEnv
        "class B \x7b go(a) \x7b return a \x7d \x7d" none
      = .ok { argNames := ["a"], fallbackArity := 1,
              target := .classMethod "B" "go" } :=
  C7_class_method_binding clsJsEnv
    "class B \x7b go(a) \x7b return a \x7d \x7d" none
    { className := "B", methodName := "go", args := ["a"] } rfl
    (fun _ h => Option.noConfusion h)
    (fun signature h => by
      rw [show findFunctionSignature
        "class B \x7b go(a) \x7b return a \x7d \x7d" = none from rfl] at h
      exact Option.noConfusion h)
    rfl rfl

/-- C8: both the run-code and the submit-code handlers select the
execution mode solely from the problem's order field (0 when absent):
ExecutionOnly exactly when it is at least the fixed threshold 7, Strict
otherwise; hence the same problem is always graded in the same mode by
both operations. -/
theorem C8_mode_threshold (order : Option Int) :
    runCodeExecutionMode order = submitCodeExecutionMode order ∧
    (runCodeExecutionMode order = .execution_only ↔ 7 ≤ order.getD 0) ∧
    (runCodeExecutionMode order = .strict ↔ order.getD 0 < 7) ∧
    runCodeExecutionMode none = runCodeExecutionMode (some 0) := by
  refine ⟨rfl, ?_, ?_, rfl⟩
  · unfold runCodeExecutionMode
    by_cases h : 7 ≤ order.getD 0
    · rw [if_pos h]
      exact iff_of_true rfl h
    · rw [if_neg h]
      exact iff_of_false (by decide) h
  · unfold runCodeExecutionMode
    by_cases h : 7 ≤ order.getD 0
    · rw [if_pos h]
      constructor
      · intro hcon
        exact absurd hcon (by decide)
      · intro hlt
        omega
    · rw [if_neg h]
      constructor
      · intro _
        omega
      · intro _
        rfl

/-- C9: the out-of-process Python runner tries `python` then `py -3`;
a binary-not-found spawn failure (`ENOENT`) on the first candidate
makes the run continue with the remaining candidates, a different spawn
failure fails the case with that failure's message, and when every
candidate is absent the case (and, on the execution-only path, every
synthetic case of the verdict) fails with exactly "Python runtime not
found. Install Python and try again.". -/
theorem C9_python_runtime_fallback
    (spawn : PyAttempt → String → SpawnOutcome)
    (spawnNoInput : PyAttempt → SpawnOutcome)
    (parseResponse : String → Option PyCaseOutcome) (code : String)
    (functionName : Option String) (args : List JsValue)
    (testCases : List TestCase) (elapsedMs : Nat) :
    (∀ m₁ m₂,
      spawn { cmd := "python", args := ["-c", pythonRunnerScript] }
          (pythonPayload code functionName args) = .failed "ENOENT" m₁ →
      spawn { cmd := "py", args := ["-3", "-c", pythonRunnerScript] }
          (pythonPayload code functionName args) = .failed "ENOENT" m₂ →
      runPythonCase spawn parseResponse code functionName args
        = .err "Python runtime not found. Install Python and try again.") ∧
    (∀ m₁,
      spawn { cmd := "python", args := ["-c", pythonRunnerScript] }
          (pythonPayload code functionName args) = .failed "ENOENT" m₁ →
      runPythonCase spawn parseResponse code functionName args
        = runPythonAttemptList spawn parseResponse
            (pythonPayload code functionName args)
            [{ cmd := "py", args := ["-3", "-c", pythonRunnerScript] }]) ∧
    (∀ errCode m, errCode ≠ "ENOENT" →
      spawn { cmd := "python", args := ["-c", pythonRunnerScript] }
          (pythonPayload code functionName args) = .failed errCode m →
      runPythonCase spawn parseResponse code functionName args = .err m) ∧
    (∀ m₁ m₂,
      spawnNoInput { cmd := "python", args := ["-c", code] }
          = .failed "ENOENT" m₁ →
      spawnNoInput { cmd := "py", args := ["-3", "-c", code] }
          = .failed "ENOENT" m₂ →
      (runPythonExecutionOnly spawnNoInput elapsedMs code testCases).status
          = .runtime_error ∧
      ∀ r ∈ (runPythonExecutionOnly spawnNoInput elapsedMs code
          testCases).results,
        r.error
          = some "Python runtime not found. Install Python and try again.") := by
  have hrw : runPythonCase spawn parseResponse code functionName args
      = runPythonAttemptList spawn parseResponse
          (pythonPayload code functionName args)
          ({ cmd := "python", args := ["-c", pythonRunnerScript] }
            :: [{ cmd := "py", args := ["-3", "-c", pythonRunnerScript] }]) :=
    rfl
  refine ⟨?_, ?_, ?_, ?_⟩
  · intro m₁ m₂ h₁ h₂
    rw [hrw]
    unfold runPythonAttemptList
    rw [h₁]
    dsimp only
    rw [if_pos rfl]
    unfold runPythonAttemptList
    rw [h₂]
    dsimp only
    rw [if_pos rfl]
    rfl
  · intro m₁ h₁
    rw [hrw]
    unfold runPythonAttemptList
    rw [h₁]
    dsimp only
    rw [if_pos rfl]
    rfl
  · intro errCode m hcode h₁
    rw [hrw]
    unfold runPythonAttemptList
    rw [h₁]
    dsimp only
    rw [if_neg hcode]
  · intro m₁ m₂ h₁ h₂
    have hexec : runPythonExecutionOnly spawnNoInput elapsedMs code testCases
        = runPythonExecutionOnlyAux spawnNoInput elapsedMs
            (syntheticCases testCases)
            ({ cmd := "python", args := ["-c", code] }
              :: [{ cmd := "py", args := ["-3", "-c", code] }]) := rfl
    rw [hexec]
    unfold runPythonExecutionOnlyAux
    rw [h₁]
    dsimp only
    rw [if_pos rfl]
    unfold runPythonExecutionOnlyAux
    rw [h₂]
    dsimp only
    rw [if_pos rfl]
    refine ⟨rfl, ?_⟩
    intro r hr
    simp only [runPythonExecutionOnlyAux, List.mem_map] at hr
    obtain ⟨tc, _, rfl⟩ := hr
    rfl

/-- C9 witness: both candidates absent at concrete oracles. -/
theorem C9_python_runtime_fallback_witness :
    runPythonCase (fun _ _ => .failed "ENOENT" "spawn python ENOENT")
        (fun _ => none) "print(1)" none []
      = .err "Python runtime not found. Install Python and try again." ∧
    (runPythonExecutionOnly stubPyEnv.spawnNoInput 0 "print(1)" []).status
      = .runtime_error :=
  ⟨(C9_python_runtime_fallback
      (fun _ _ => .failed "ENOENT" "spawn python ENOENT")
      stubPyEnv.spawnNoInput (fun _ => none) "print(1)" none [] [] 0).1
      "spawn python ENOENT" "spawn python ENOENT" rfl rfl,
   ((C9_python_runtime_fallback
      (fun _ _ => .failed "ENOENT" "spawn python ENOENT")
      stubPyEnv.spawnNoInput (fun _ => none) "print(1)" none [] [] 0).2.2.2
      "spawn python ENOENT" "spawn python ENOENT" rfl rfl).1⟩

/-- C10: a strict-mode submission over an empty test-case list — for
JavaScript, provided signature resolution succeeds and the resolved
solution is a function — yields the Verdict with status Accepted,
passed 0, total 0, and no results, without exercising any user code
path. -/
theorem C10_empty_testcases_accepted (jsEnv : JsEnv) (pyEnv : PyEnv)
    (code : String) (expectedFunctionName : Option String)
    (resolvedCallable : JsResolvedCallable)
    (hres : resolveJavascriptCallable jsEnv code expectedFunctionName
      = .ok resolvedCallable)
    (hsol : jsEnv.solutionIsFunction = true) :
    runJavascriptAgainstTestCases jsEnv code [] expectedFunctionName .strict
      = { status := .accepted, runtime := jsEnv.elapsedMs, passed := 0,
          total := 0, results := [] } ∧
    runPythonAgainstTestCases pyEnv code [] expectedFunctionName .strict
      = { status := .accepted, runtime := pyEnv.elapsedMs, passed := 0,
          total := 0, results := [] } := by
  constructor
  · unfold runJavascriptAgainstTestCases
    rw [hres, hsol]
    rfl
  · rfl

/-- C10 witness: the empty-list verdicts at concrete oracles. -/
theorem C10_empty_testcases_accepted_witness :
    runJavascriptAgainstTestCases solvedJsEnv
        "function solve(x) \x7b return x; \x7d" [] none .strict
      = { status := .accepted, runtime := 0, passed := 0, total := 0,
          results := [] } ∧
    runPythonAgainstTestCases stubPyEnv "def solve(x):\n    return x" []
        none .strict
      = { status := .accepted, runtime := 0, passed := 0, total := 0,
          results := [] } :=
  C10_empty_testcases_accepted solvedJsEnv stubPyEnv
    "function solve(x) \x7b return x; \x7d" none
    ⟨["x"], 1, .globalFn "solve"⟩ rfl rfl

end Judge

